import Mathlib

/-!
Verification of the aggregation / report-building core of
`emby_seen_status.py` (repository `r-poulsen/emby_seen_status`).

The Python program fetches, for every Emby profile, the list of media items
visible to that profile together with a per-profile `Played` flag, classifies
each raw record into an episode / series / movie, merges the per-profile
sightings into three id-keyed mappings accumulating `seen_by` lists, and then
renders a sorted report table.

This file shallowly embeds that core:

* raw JSON records become the structure `RawItem` (field `Type` of the JSON
  record is called `itemType` here because `Type` is reserved in Lean);
* `EmbyItem.create_from_dict` (lines 35-45 of the source) becomes
  `create_from_dict`;
* the per-profile merge loop of `EmbySeen.get_media_list` (lines 161-186)
  becomes `aggregate`, built from `mergeStep`; the three `dict`s are embedded
  as insertion-ordered association lists (Python dicts preserve insertion
  order and the loop only inserts fresh keys or mutates `seen_by` in place);
* the report-building part of `get_media_list` (lines 188-209) becomes
  `get_media_list`, returning `Except ReportError (List Row)`: an `.error`
  value models an uncaught Python exception (`KeyError` from
  `series[...]` or from `self.config['hide_episodes']`), in which case
  `display_output` (line 211) is never reached and no table is printed;
* Python's stable `sorted` is embedded as a stable insertion sort `insSort`;
  the episode sort key tuple `(series name, season, season_name, episode)`
  is embedded as a lexicographic product `SortKey`, strings being compared
  by code points exactly as Python compares them.
-/

/-- Decidable equality of `Except` values (used only to evaluate the
embedding on concrete inputs). -/
instance {ε α : Type} [DecidableEq ε] [DecidableEq α] :
    DecidableEq (Except ε α) := fun x y =>
  match x, y with
  | Except.error a, Except.error b =>
      if h : a = b then isTrue (by rw [h])
      else isFalse (by intro hc; cases hc; exact h rfl)
  | Except.ok a, Except.ok b =>
      if h : a = b then isTrue (by rw [h])
      else isFalse (by intro hc; cases hc; exact h rfl)
  | Except.error _, Except.ok _ => isFalse (by intro hc; cases hc)
  | Except.ok _, Except.error _ => isFalse (by intro hc; cases hc)

/-- An Emby profile (`EmbyProfile` dataclass, lines 13-17). -/
structure EmbyProfile where
  name : String
  id : String
deriving DecidableEq

/-- The `UserData` sub-record of a raw item, with its `Played` flag. -/
structure RawUserData where
  Played : Bool
deriving DecidableEq

/-- A raw item record from the `/Users/{id}/Items` endpoint.  `itemType`
models the JSON field `Type` (reserved word in Lean).  `ParentIndexNumber`
is the one field the source treats as optional (line 53); the remaining
fields are read unconditionally for the variants that use them. -/
structure RawItem where
  itemType : String
  Name : String
  Id : String
  UserData : RawUserData
  SeriesId : String
  ParentIndexNumber : Option Int
  SeasonName : String
  IndexNumber : Int
deriving DecidableEq

/-- A movie: an instance of the base class `EmbyItem` (lines 20-33), the
default / fallback variant.  `profile` models the `self.profile` field set
by `EmbyItem.__init__`. -/
structure EmbyMovie where
  name : String
  id : String
  seen_by : List String
  profile : EmbyProfile
deriving DecidableEq

/-- A series (`EmbySeries`, lines 62-66): no extra fields beyond the base. -/
structure EmbySeries where
  name : String
  id : String
  seen_by : List String
  profile : EmbyProfile
deriving DecidableEq

/-- An episode (`EmbyEpisode`, lines 48-59). -/
structure EmbyEpisode where
  name : String
  id : String
  seen_by : List String
  profile : EmbyProfile
  series_id : String
  season : Int
  season_name : String
  episode : Int
deriving DecidableEq

/-- The result of classifying one raw record: exactly one of the three
variants (the Python code produces an `EmbyEpisode`, an `EmbySeries`, or a
base `EmbyItem`). -/
inductive ClassifiedItem where
  | episode (e : EmbyEpisode)
  | series (s : EmbySeries)
  | movie (m : EmbyMovie)
deriving DecidableEq

/-- `seen_by` initialisation of `EmbyItem.__init__` (lines 30-33):
`[profile.name]` when the record's `Played` flag is true, else `[]`. -/
def seenByInit (d : RawItem) (p : EmbyProfile) : List String :=
  if d.UserData.Played then [p.name] else []

/-- `EmbyItem.create_from_dict` (lines 35-45): dispatch on the `Type`
field; `"Episode"` and `"Series"` are checked in that order, anything else
falls back to the base item (movie).  Episode fields per lines 52-58:
`series_id` from `SeriesId`, `season` from `ParentIndexNumber` defaulting
to `0` when absent, `season_name` from `SeasonName`, `episode` from
`IndexNumber`. -/
def create_from_dict (d : RawItem) (p : EmbyProfile) : ClassifiedItem :=
  if d.itemType = "Episode" then
    ClassifiedItem.episode
      { name := d.Name, id := d.Id, seen_by := seenByInit d p, profile := p,
        series_id := d.SeriesId, season := d.ParentIndexNumber.getD 0,
        season_name := d.SeasonName, episode := d.IndexNumber }
  else if d.itemType = "Series" then
    ClassifiedItem.series
      { name := d.Name, id := d.Id, seen_by := seenByInit d p, profile := p }
  else
    ClassifiedItem.movie
      { name := d.Name, id := d.Id, seen_by := seenByInit d p, profile := p }

/-- Association-list lookup, modelling `d[k]` / `k in d` on a Python dict
(the three dicts only ever receive distinct keys, so first-match lookup is
exact). -/
def lookupA {α : Type} : List (String × α) → String → Option α
  | [], _ => none
  | kv :: rest, k => if kv.1 = k then some kv.2 else lookupA rest k

/-- Generic in-place mutation `d[k].seen_by.append(n)`, parameterised by the
`seen_by` getter `sb` and setter `setSb` of the value type. -/
def updateSeen {α : Type} (sb : α → List String) (setSb : α → List String → α)
    (m : List (String × α)) (k : String) (n : String) : List (String × α) :=
  m.map fun kv => if kv.1 = k then (kv.1, setSb kv.2 (sb kv.2 ++ [n])) else kv

/-- One merge step of the aggregation loop (lines 169-186), generic over the
value type: if the id `k` is already present, append the profile name to the
canonical entry's `seen_by` when the new sighting's `seen_by` is non-empty
(Python truthiness of `item.seen_by`); otherwise insert the new item. -/
def mergeOne {α : Type} (sb : α → List String) (setSb : α → List String → α)
    (m : List (String × α)) (k : String) (item : α) (pname : String) :
    List (String × α) :=
  match lookupA m k with
  | some _ => if sb item = [] then m else updateSeen sb setSb m k pname
  | none => m ++ [(k, item)]

/-- Folding a list of merge operations `(key, item, profile name)` over a
mapping. -/
def mergeFold {α : Type} (sb : α → List String) (setSb : α → List String → α)
    (m : List (String × α)) (ops : List (String × α × String)) :
    List (String × α) :=
  ops.foldl (fun acc op => mergeOne sb setSb acc op.1 op.2.1 op.2.2) m

/-- The profile names contributed to key `k` by a list of merge operations:
one entry per operation on `k` whose item has a non-empty `seen_by`. -/
def collectSeen {α : Type} (sb : α → List String)
    (ops : List (String × α × String)) (k : String) : List String :=
  ops.filterMap fun op => if op.1 = k ∧ sb op.2.1 ≠ [] then some op.2.2 else none

/-- `seen_by` setter for episodes. -/
def epSetSeen (e : EmbyEpisode) (l : List String) : EmbyEpisode :=
  { e with seen_by := l }

/-- `seen_by` setter for series. -/
def seriesSetSeen (s : EmbySeries) (l : List String) : EmbySeries :=
  { s with seen_by := l }

/-- `seen_by` setter for movies. -/
def movieSetSeen (m : EmbyMovie) (l : List String) : EmbyMovie :=
  { m with seen_by := l }

/-- The three id-keyed mappings `movies, series, episodes` of
`get_media_list` (line 145). -/
structure AggState where
  movies : List (String × EmbyMovie)
  series : List (String × EmbySeries)
  episodes : List (String × EmbyEpisode)
deriving DecidableEq

/-- The empty aggregation state (`movies, series, episodes = {}, {}, {}`). -/
def emptyAgg : AggState := { movies := [], series := [], episodes := [] }

/-- Processing one raw record for one profile (lines 165-186): classify it,
then merge it into the mapping of its variant class. -/
def mergeStep (p : EmbyProfile) (st : AggState) (d : RawItem) : AggState :=
  match create_from_dict d p with
  | ClassifiedItem.episode e =>
      { st with episodes :=
          mergeOne EmbyEpisode.seen_by epSetSeen st.episodes e.id e p.name }
  | ClassifiedItem.series s =>
      { st with series :=
          mergeOne EmbySeries.seen_by seriesSetSeen st.series s.id s p.name }
  | ClassifiedItem.movie m =>
      { st with movies :=
          mergeOne EmbyMovie.seen_by movieSetSeen st.movies m.id m p.name }

/-- Processing one profile's fetch result: fold its items left to right. -/
def processProfile (st : AggState) (pf : EmbyProfile × List RawItem) :
    AggState :=
  pf.2.foldl (mergeStep pf.1) st

/-- The whole aggregation loop (lines 145-186): fold every profile's fetch
result, in order, into the initially empty mappings. -/
def aggregate (fetches : List (EmbyProfile × List RawItem)) : AggState :=
  fetches.foldl processProfile emptyAgg

/-- The flattened sequence of `(profile, record)` sightings, in processing
order. -/
def occurrences (fetches : List (EmbyProfile × List RawItem)) :
    List (EmbyProfile × RawItem) :=
  fetches.flatMap fun pf => pf.2.map fun d => (pf.1, d)

/-- Folding a flattened sighting sequence over a state. -/
def foldOccs (st : AggState) (os : List (EmbyProfile × RawItem)) : AggState :=
  os.foldl (fun acc pr => mergeStep pr.1 acc pr.2) st

/-- The episode merge operations induced by a sighting sequence. -/
def epOps (os : List (EmbyProfile × RawItem)) :
    List (String × EmbyEpisode × String) :=
  os.filterMap fun pr =>
    match create_from_dict pr.2 pr.1 with
    | ClassifiedItem.episode e => some (e.id, e, pr.1.name)
    | _ => none

/-- The series merge operations induced by a sighting sequence. -/
def seriesOps (os : List (EmbyProfile × RawItem)) :
    List (String × EmbySeries × String) :=
  os.filterMap fun pr =>
    match create_from_dict pr.2 pr.1 with
    | ClassifiedItem.series s => some (s.id, s, pr.1.name)
    | _ => none

/-- The movie merge operations induced by a sighting sequence. -/
def movieOps (os : List (EmbyProfile × RawItem)) :
    List (String × EmbyMovie × String) :=
  os.filterMap fun pr =>
    match create_from_dict pr.2 pr.1 with
    | ClassifiedItem.movie m => some (m.id, m, pr.1.name)
    | _ => none

/-- The two exceptions that can escape the report-building part of
`get_media_list`: `KeyError` from `series[e.series_id]` (orphan episode,
lines 192 and 196) and `KeyError` from `self.config['hide_episodes']`
(line 200). -/
inductive ReportError where
  | orphanEpisode
  | missingHideEpisodes
deriving DecidableEq

/-- The configuration as seen by `get_media_list`: only `hide_episodes`
matters there; `none` models a configuration in which the
`hide_episodes` key is absent (e.g. the default `{'emby': {}}` built when
host and key come from the command line alone). -/
structure Config where
  hide_episodes : Option (List String)
deriving DecidableEq

/-- One output row `[kind, title, seen_by]` as appended by
`output_append`. -/
structure Row where
  kind : String
  title : String
  seen_by : List String
deriving DecidableEq

/-- The episode sort key `(series name, season, season_name, episode)`
(lines 190-194), ordered lexicographically exactly as Python orders tuples;
strings are compared by code points, embedded as their character lists. -/
abbrev SortKey : Type :=
  Lex (List Char × Lex (Int × Lex (List Char × Int)))

/-- Building the sort key of an episode from its resolved series name. -/
def mkKey (sname : String) (e : EmbyEpisode) : SortKey :=
  toLex (sname.data, toLex (e.season, toLex (e.season_name.data, e.episode)))

/-- Boolean comparison of sort keys (a decidable total preorder). -/
def keyLE (a b : SortKey) : Bool := decide (a ≤ b)

/-- Stable insertion of an element into a list: the element goes in front
of the first position it compares `le` to. -/
def insSorted {α : Type} (le : α → α → Bool) (x : α) : List α → List α
  | [] => [x]
  | y :: ys => if le x y then x :: y :: ys else y :: insSorted le x ys

/-- Stable insertion sort: the embedding of Python's stable `sorted`.  For a
total preorder a stable sort's output is unique, so this agrees with the
source's sort. -/
def insSort {α : Type} (le : α → α → Bool) : List α → List α
  | [] => []
  | x :: xs => insSorted le x (insSort le xs)

/-- Resolving the sort keys of the aggregated episodes (the `key` lambda of
line 191-193): for each `(id, episode)` entry, look up its series — a
missing series id raises `KeyError` (orphan episode) — and pair the entry
with its key.  CPython's `sorted` computes all keys left to right before
comparing, so the first failing lookup aborts before any comparison. -/
def keyEpisodes (sm : List (String × EmbySeries)) :
    List (String × EmbyEpisode) →
    Except ReportError (List (SortKey × String × EmbyEpisode))
  | [] => Except.ok []
  | kv :: rest =>
    match lookupA sm kv.2.series_id with
    | none => Except.error ReportError.orphanEpisode
    | some sv =>
      match keyEpisodes sm rest with
      | Except.error er => Except.error er
      | Except.ok tail => Except.ok ((mkKey sv.name kv.2, kv) :: tail)

/-- Key comparison lifted to keyed entries. -/
def keyedLE (a b : SortKey × String × EmbyEpisode) : Bool := keyLE a.1 b.1

/-- The sorted keyed episode sequence of lines 190-194. -/
def sortedKeyedEpisodes (st : AggState) :
    Except ReportError (List (SortKey × String × EmbyEpisode)) :=
  match keyEpisodes st.series st.episodes with
  | Except.error er => Except.error er
  | Except.ok l => Except.ok (insSort keyedLE l)

/-- Python's `f"{n:02d}"`: zero-pad to two characters (a minus sign counts
towards the width, so negative values are rendered as-is). -/
def pad2 (n : Int) : String :=
  if 0 ≤ n ∧ n < 10 then "0" ++ toString n else toString n

/-- The episode row title of lines 203-204:
`"<series name> [<season:02d>x<episode:02d>] <episode name>"`. -/
def epTitle (sname : String) (e : EmbyEpisode) : String :=
  sname ++ " [" ++ pad2 e.season ++ "x" ++ pad2 e.episode ++ "] " ++ e.name

/-- The grouping fold of lines 188-206 over the sorted episode sequence,
carrying the last emitted series name `s` (initially `""`).  For each
episode: resolve its series (`KeyError` on an orphan), emit a `Series` row
when the resolved name differs from `s`, then — after looking up
`hide_episodes` in the configuration, whose absence raises `KeyError` —
emit the `Episode` row unless the series name is suppressed. -/
def epRowsFold (cfg : Config) (sm : List (String × EmbySeries)) :
    String → List (SortKey × String × EmbyEpisode) →
    Except ReportError (List Row)
  | _, [] => Except.ok []
  | s, kv :: rest =>
    match lookupA sm kv.2.2.series_id with
    | none => Except.error ReportError.orphanEpisode
    | some sv =>
      let headRows : List Row :=
        if s ≠ sv.name then [{ kind := "Series", title := sv.name, seen_by := sv.seen_by }] else []
      match cfg.hide_episodes with
      | none => Except.error ReportError.missingHideEpisodes
      | some hs =>
        let eRows : List Row :=
          if sv.name ∉ hs then
            [{ kind := "Episode", title := epTitle sv.name kv.2.2,
               seen_by := kv.2.2.seen_by }]
          else []
        match epRowsFold cfg sm sv.name rest with
        | Except.error er => Except.error er
        | Except.ok tail => Except.ok (headRows ++ eRows ++ tail)

/-- Movie name comparison (line 208 sorts by `x[1].name`). -/
def movLE (a b : String × EmbyMovie) : Bool :=
  decide (a.2.name.data ≤ b.2.name.data)

/-- The movies sorted by name (line 208). -/
def sortedMovies (st : AggState) : List (String × EmbyMovie) :=
  insSort movLE st.movies

/-- The `Movie` rows of lines 208-209, emitted after all episode rows. -/
def movieRows (st : AggState) : List Row :=
  (sortedMovies st).map fun kv =>
    { kind := "Movie", title := kv.2.name, seen_by := kv.2.seen_by }

/-- The report-building part of `get_media_list` (lines 143-211): aggregate
all fetch results, then produce the ordered row list; `.ok rows` means
`display_output` renders exactly `rows`, `.error` models an uncaught
`KeyError`, in which case line 211 is never reached and no table is
printed. -/
def get_media_list (cfg : Config)
    (fetches : List (EmbyProfile × List RawItem)) :
    Except ReportError (List Row) :=
  let st := aggregate fetches
  match sortedKeyedEpisodes st with
  | Except.error er => Except.error er
  | Except.ok sortedEps =>
    match epRowsFold cfg st.series "" sortedEps with
    | Except.error er => Except.error er
    | Except.ok epRows => Except.ok (epRows ++ movieRows st)

/-- The series name a keyed episode entry resolves to (`""` when the lookup
would fail; under a successful run every lookup succeeds). -/
def resolvedName (sm : List (String × EmbySeries))
    (kv : SortKey × String × EmbyEpisode) : String :=
  match lookupA sm kv.2.2.series_id with
  | some sv => sv.name
  | none => ""

/-- The rows one episode contributes, given the series name `prev` emitted
before it: a `Series` header exactly when the resolved name differs from
`prev`, then the `Episode` row unless the series name is suppressed. -/
def stepRows (cfg : Config) (sm : List (String × EmbySeries))
    (prev : String) (kv : SortKey × String × EmbyEpisode) : List Row :=
  match lookupA sm kv.2.2.series_id, cfg.hide_episodes with
  | some sv, some hs =>
      (if prev ≠ sv.name then
        [{ kind := "Series", title := sv.name, seen_by := sv.seen_by }]
       else []) ++
      (if sv.name ∉ hs then
        [{ kind := "Episode", title := epTitle sv.name kv.2.2,
           seen_by := kv.2.2.seen_by }]
       else [])
  | _, _ => []

/-- Closed form of the grouping fold: each episode of the sorted sequence is
paired with the resolved name of its predecessor (`s` for the head) and
contributes its `stepRows`. -/
def expectedEpRows (cfg : Config) (sm : List (String × EmbySeries))
    (s : String) (l : List (SortKey × String × EmbyEpisode)) : List Row :=
  (l.zip (s :: l.map (resolvedName sm))).flatMap fun q =>
    stepRows cfg sm q.2 q.1

/-- The ids of the episode-classified records of one fetch result. -/
def episodeIds (items : List RawItem) : List String :=
  (items.filter fun d => decide (d.itemType = "Episode")).map fun d => d.Id

/-- The ids of the series-classified records of one fetch result. -/
def seriesIds (items : List RawItem) : List String :=
  (items.filter fun d => decide (d.itemType = "Series")).map fun d => d.Id

/-- The ids of the movie-classified (fallback) records of one fetch
result. -/
def movieIds (items : List RawItem) : List String :=
  (items.filter fun d =>
    decide (d.itemType ≠ "Episode" ∧ d.itemType ≠ "Series")).map fun d => d.Id

/-! Concrete inputs used to instantiate the theorems below. -/

/-- A concrete profile. -/
def profP : EmbyProfile := { name := "P1", id := "u1" }

/-- A second concrete profile. -/
def profQ : EmbyProfile := { name := "P2", id := "u2" }

/-- A concrete raw record of type `Series`. -/
def rawSeriesRec (nm i : String) (pl : Bool) : RawItem :=
  { itemType := "Series", Name := nm, Id := i, UserData := { Played := pl },
    SeriesId := "", ParentIndexNumber := none, SeasonName := "",
    IndexNumber := 0 }

/-- A concrete raw record of type `Episode`. -/
def rawEpRec (nm i sid : String) (season : Option Int) (sn : String)
    (en : Int) (pl : Bool) : RawItem :=
  { itemType := "Episode", Name := nm, Id := i, UserData := { Played := pl },
    SeriesId := sid, ParentIndexNumber := season, SeasonName := sn,
    IndexNumber := en }

/-- A concrete raw record of type `Movie` (the fallback variant). -/
def rawMovieRec (nm i : String) (pl : Bool) : RawItem :=
  { itemType := "Movie", Name := nm, Id := i, UserData := { Played := pl },
    SeriesId := "", ParentIndexNumber := none, SeasonName := "",
    IndexNumber := 0 }

/-- Two-profile fetch results exercising all three variants. -/
def fetchesA : List (EmbyProfile × List RawItem) :=
  [(profP, [rawSeriesRec "Alpha" "s1" true,
            rawEpRec "E2" "e2" "s1" (some 1) "Season 1" 2 true,
            rawEpRec "E1" "e1" "s1" (some 1) "Season 1" 1 false,
            rawMovieRec "Foo" "m1" true]),
   (profQ, [rawMovieRec "Foo" "m1" false,
            rawMovieRec "Bar" "m2" true])]

/-- The same fetch results with the two profiles swapped. -/
def fetchesB : List (EmbyProfile × List RawItem) :=
  [(profQ, [rawMovieRec "Foo" "m1" false,
            rawMovieRec "Bar" "m2" true]),
   (profP, [rawSeriesRec "Alpha" "s1" true,
            rawEpRec "E2" "e2" "s1" (some 1) "Season 1" 2 true,
            rawEpRec "E1" "e1" "s1" (some 1) "Season 1" 1 false,
            rawMovieRec "Foo" "m1" true])]

/-- One profile whose fetch result contains the same movie id twice with a
true played flag — the duplicate-id input refuting claim C2. -/
def fetchesDup : List (EmbyProfile × List RawItem) :=
  [(profP, [rawMovieRec "Foo" "m1" true, rawMovieRec "Foo" "m1" true])]

/-- A fetch result with an orphan episode: its `SeriesId` resolves to no
aggregated series. -/
def fetchesOrphan : List (EmbyProfile × List RawItem) :=
  [(profP, [rawEpRec "E1" "e1" "sMissing" (some 1) "Season 1" 1 true])]

/-- A fetch result containing a series whose name is the empty string,
with one episode — the input refuting the second half of claim C6. -/
def fetchesEmptyName : List (EmbyProfile × List RawItem) :=
  [(profP, [rawSeriesRec "" "s0" true,
            rawEpRec "E1" "e0" "s0" (some 1) "Season 1" 1 true])]

/-- A configuration whose `hide_episodes` set is empty. -/
def cfgNoHide : Config := { hide_episodes := some [] }

/-- A configuration hiding the episodes of the series named `"Alpha"`. -/
def cfgHideAlpha : Config := { hide_episodes := some ["Alpha"] }

/-- A configuration hiding the episodes of the empty-named series. -/
def cfgHideEmpty : Config := { hide_episodes := some [""] }

/-- A configuration with no `hide_episodes` key at all. -/
def cfgMissing : Config := { hide_episodes := none }

/-- A concrete aggregation state with one entry per mapping, used to
instantiate the frame and monotonicity theorems. -/
def stOne : AggState :=
  { movies := [("m1", { name := "Foo", id := "m1", seen_by := ["P1"],
                        profile := profP })],
    series := [("s1", { name := "Alpha", id := "s1", seen_by := ["P1"],
                        profile := profP })],
    episodes := [("e1", { name := "E1", id := "e1", seen_by := ["P1"],
                          profile := profP, series_id := "s1", season := 1,
                          season_name := "Season 1", episode := 1 })] }

/-! ### Association-list lemmas -/

theorem lookupA_append_of_some {α : Type} {m l : List (String × α)}
    {k : String} {a : α} (h : lookupA m k = some a) :
    lookupA (m ++ l) k = some a := by
  induction m with
  | nil => simp [lookupA] at h
  | cons kv rest ih =>
    by_cases hk : kv.1 = k
    · simp only [lookupA, hk, if_pos] at h
      simp only [List.cons_append, lookupA, hk, if_pos]
      exact h
    · simp only [lookupA, hk, if_neg, ite_false] at h
      simp only [List.cons_append, lookupA, hk, if_neg, ite_false]
      exact ih h

theorem lookupA_append_of_none {α : Type} {m l : List (String × α)}
    {k : String} (h : lookupA m k = none) :
    lookupA (m ++ l) k = lookupA l k := by
  induction m with
  | nil => simp
  | cons kv rest ih =>
    by_cases hk : kv.1 = k
    · simp [lookupA, hk] at h
    · simp only [lookupA, hk, if_neg, ite_false] at h
      simp only [List.cons_append, lookupA, hk, if_neg, ite_false]
      exact ih h

theorem lookupA_updateSeen_self {α : Type} (sb : α → List String)
    (setSb : α → List String → α) {m : List (String × α)} {k : String}
    {a : α} (n : String) (h : lookupA m k = some a) :
    lookupA (updateSeen sb setSb m k n) k = some (setSb a (sb a ++ [n])) := by
  induction m with
  | nil => simp [lookupA] at h
  | cons kv rest ih =>
    by_cases hk : kv.1 = k
    · simp only [lookupA, hk, if_pos] at h
      cases h
      simp [updateSeen, lookupA, hk]
    · simp only [lookupA, hk, if_neg, ite_false] at h
      simpa [updateSeen, lookupA, hk] using ih h

theorem lookupA_updateSeen_ne {α : Type} (sb : α → List String)
    (setSb : α → List String → α) {m : List (String × α)} {k k' : String}
    (n : String) (h : k ≠ k') :
    lookupA (updateSeen sb setSb m k n) k' = lookupA m k' := by
  induction m with
  | nil => simp [updateSeen, lookupA]
  | cons kv rest ih =>
    simp only [updateSeen, List.map_cons] at ih ⊢
    by_cases hk : kv.1 = k
    · simp [lookupA, hk, h, ih]
    · simp [lookupA, hk, ih]

theorem mergeOne_lookup_ne {α : Type} (sb : α → List String)
    (setSb : α → List String → α) {m : List (String × α)} {k k' : String}
    {it : α} {nm : String} (h : k' ≠ k) :
    lookupA (mergeOne sb setSb m k' it nm) k = lookupA m k := by
  unfold mergeOne
  cases hm : lookupA m k' with
  | some b =>
    by_cases hsb : sb it = []
    · simp [hsb]
    · simp [hsb, lookupA_updateSeen_ne sb setSb nm h]
  | none =>
    cases hmk : lookupA m k with
    | some a => simp [lookupA_append_of_some hmk]
    | none => simp [lookupA_append_of_none hmk, lookupA, h]

/-! ### Merge-fold lemmas -/

theorem collectSeen_cons {α : Type} (sb : α → List String)
    (op : String × α × String) (ops : List (String × α × String))
    (k : String) :
    collectSeen sb (op :: ops) k =
      (if op.1 = k ∧ sb op.2.1 ≠ [] then [op.2.2] else []) ++
        collectSeen sb ops k := by
  by_cases h : op.1 = k ∧ sb op.2.1 ≠ [] <;> simp [collectSeen, h]

theorem mergeFold_lookup_some {α : Type} (sb : α → List String)
    (setSb : α → List String → α)
    (hget : ∀ a l, sb (setSb a l) = l)
    (hcomp : ∀ a l l', setSb (setSb a l) l' = setSb a l')
    (hid : ∀ a, setSb a (sb a) = a)
    {ops : List (String × α × String)} {m : List (String × α)}
    {k : String} {a : α} (h : lookupA m k = some a) :
    lookupA (mergeFold sb setSb m ops) k =
      some (setSb a (sb a ++ collectSeen sb ops k)) := by
  induction ops generalizing m a with
  | nil => simpa [mergeFold, collectSeen, hid] using h
  | cons op rest ih =>
    obtain ⟨k', it, nm⟩ := op
    have hfold : mergeFold sb setSb m ((k', it, nm) :: rest) =
        mergeFold sb setSb (mergeOne sb setSb m k' it nm) rest := rfl
    rw [hfold, collectSeen_cons]
    by_cases hk : k' = k
    · subst hk
      by_cases hsb : sb it = []
      · have hone : mergeOne sb setSb m k' it nm = m := by
          simp [mergeOne, h, hsb]
        rw [hone, ih h]
        simp [hsb]
      · have hone : mergeOne sb setSb m k' it nm =
            updateSeen sb setSb m k' nm := by
          simp [mergeOne, h, hsb]
        rw [hone]
        have h2 := lookupA_updateSeen_self sb setSb nm h
        rw [ih h2, hget, hcomp]
        simp [hsb, List.append_assoc]
    · have h2 : lookupA (mergeOne sb setSb m k' it nm) k = some a := by
        rw [mergeOne_lookup_ne sb setSb hk]; exact h
      rw [ih h2]
      simp [hk]

theorem mergeFold_lookup_none_of_not_mem {α : Type} (sb : α → List String)
    (setSb : α → List String → α)
    {ops : List (String × α × String)} {m : List (String × α)} {k : String}
    (h : lookupA m k = none) (hno : ∀ op ∈ ops, op.1 ≠ k) :
    lookupA (mergeFold sb setSb m ops) k = none := by
  induction ops generalizing m with
  | nil => simpa [mergeFold] using h
  | cons op rest ih =>
    obtain ⟨k', it, nm⟩ := op
    have hfold : mergeFold sb setSb m ((k', it, nm) :: rest) =
        mergeFold sb setSb (mergeOne sb setSb m k' it nm) rest := rfl
    rw [hfold]
    have hk : k' ≠ k := hno _ (List.mem_cons_self _ _)
    have h2 : lookupA (mergeOne sb setSb m k' it nm) k = none := by
      rw [mergeOne_lookup_ne sb setSb hk]; exact h
    exact ih h2 (fun op hop => hno op (List.mem_cons_of_mem _ hop))

theorem mergeFold_lookup_of_none {α : Type} (sb : α → List String)
    (setSb : α → List String → α)
    (hget : ∀ a l, sb (setSb a l) = l)
    (hcomp : ∀ a l l', setSb (setSb a l) l' = setSb a l')
    (hid : ∀ a, setSb a (sb a) = a)
    {ops : List (String × α × String)} {m : List (String × α)} {k : String}
    (h : lookupA m k = none)
    (hwf : ∀ op ∈ ops, op.1 = k → sb op.2.1 = [] ∨ sb op.2.1 = [op.2.2])
    {a : α} (ha : lookupA (mergeFold sb setSb m ops) k = some a) :
    sb a = collectSeen sb ops k := by
  induction ops generalizing m with
  | nil =>
    rw [show mergeFold sb setSb m [] = m from rfl] at ha
    rw [h] at ha
    cases ha
  | cons op rest ih =>
    obtain ⟨k', it, nm⟩ := op
    have hfold : mergeFold sb setSb m ((k', it, nm) :: rest) =
        mergeFold sb setSb (mergeOne sb setSb m k' it nm) rest := rfl
    rw [hfold] at ha
    rw [collectSeen_cons]
    by_cases hk : k' = k
    · subst hk
      have hone : mergeOne sb setSb m k' it nm = m ++ [(k', it)] := by
        simp [mergeOne, h]
      rw [hone] at ha
      have hlk : lookupA (m ++ [(k', it)]) k' = some it := by
        rw [lookupA_append_of_none h]
        simp [lookupA]
      rw [mergeFold_lookup_some sb setSb hget hcomp hid hlk] at ha
      cases ha
      rw [hget]
      rcases hwf _ (List.mem_cons_self _ _) rfl with hsb | hsb
      · simp [hsb]
      · simp [hsb]
    · have h2 : lookupA (mergeOne sb setSb m k' it nm) k = none := by
        rw [mergeOne_lookup_ne sb setSb hk]; exact h
      have := ih h2 (fun op hop => hwf op (List.mem_cons_of_mem _ hop)) ha
      rw [this]
      simp [hk]

/-! ### Classifier lemmas -/

theorem seenByInit_ne_nil_iff (d : RawItem) (p : EmbyProfile) :
    seenByInit d p ≠ [] ↔ d.UserData.Played = true := by
  unfold seenByInit
  cases h : d.UserData.Played <;> simp [h]

theorem create_eq_episode {d : RawItem} {p : EmbyProfile} {e : EmbyEpisode} :
    create_from_dict d p = ClassifiedItem.episode e ↔
      d.itemType = "Episode" ∧
        e = { name := d.Name, id := d.Id, seen_by := seenByInit d p,
              profile := p, series_id := d.SeriesId,
              season := d.ParentIndexNumber.getD 0,
              season_name := d.SeasonName, episode := d.IndexNumber } := by
  unfold create_from_dict
  split_ifs with h1 h2
  · simp [h1, eq_comm]
  · simp [h1, eq_comm]
  · simp [h1, eq_comm]

theorem create_eq_series {d : RawItem} {p : EmbyProfile} {s : EmbySeries} :
    create_from_dict d p = ClassifiedItem.series s ↔
      d.itemType = "Series" ∧
        s = { name := d.Name, id := d.Id, seen_by := seenByInit d p,
              profile := p } := by
  unfold create_from_dict
  split_ifs with h1 h2
  · simp [h1]
  · simp [h2, eq_comm]
  · simp [h2]

theorem create_eq_movie {d : RawItem} {p : EmbyProfile} {m : EmbyMovie} :
    create_from_dict d p = ClassifiedItem.movie m ↔
      d.itemType ≠ "Episode" ∧ d.itemType ≠ "Series" ∧
        m = { name := d.Name, id := d.Id, seen_by := seenByInit d p,
              profile := p } := by
  unfold create_from_dict
  split_ifs with h1 h2
  · simp [h1]
  · simp [h1, h2]
  · simp [h1, h2, eq_comm]

/-! ### Relating `aggregate` to the flattened sighting fold -/

theorem aggregate_eq_foldOccs (fetches : List (EmbyProfile × List RawItem)) :
    aggregate fetches = foldOccs emptyAgg (occurrences fetches) := by
  suffices h : ∀ (st : AggState),
      fetches.foldl processProfile st = foldOccs st (occurrences fetches) by
    exact h emptyAgg
  induction fetches with
  | nil => intro st; rfl
  | cons pf rest ih =>
    intro st
    have hblock : processProfile st pf =
        foldOccs st (pf.2.map fun d => (pf.1, d)) := by
      unfold processProfile foldOccs
      rw [List.foldl_map]
    calc (pf :: rest).foldl processProfile st
        = rest.foldl processProfile (processProfile st pf) := rfl
      _ = foldOccs (processProfile st pf) (occurrences rest) := ih _
      _ = foldOccs (foldOccs st (pf.2.map fun d => (pf.1, d)))
            (occurrences rest) := by rw [hblock]
      _ = foldOccs st (occurrences (pf :: rest)) := by
            unfold foldOccs occurrences
            rw [List.flatMap_cons, List.foldl_append]

theorem foldOccs_episodes (st : AggState)
    (os : List (EmbyProfile × RawItem)) :
    (foldOccs st os).episodes =
      mergeFold EmbyEpisode.seen_by epSetSeen st.episodes (epOps os) := by
  induction os generalizing st with
  | nil => rfl
  | cons pr rest ih =>
    have hstep : foldOccs st (pr :: rest) =
        foldOccs (mergeStep pr.1 st pr.2) rest := rfl
    rw [hstep, ih]
    cases h : create_from_dict pr.2 pr.1 with
    | episode e =>
      simp [mergeStep, h, epOps, List.filterMap_cons, mergeFold]
    | series s =>
      simp [mergeStep, h, epOps, List.filterMap_cons]
    | movie m =>
      simp [mergeStep, h, epOps, List.filterMap_cons]

theorem foldOccs_series (st : AggState)
    (os : List (EmbyProfile × RawItem)) :
    (foldOccs st os).series =
      mergeFold EmbySeries.seen_by seriesSetSeen st.series (seriesOps os) := by
  induction os generalizing st with
  | nil => rfl
  | cons pr rest ih =>
    have hstep : foldOccs st (pr :: rest) =
        foldOccs (mergeStep pr.1 st pr.2) rest := rfl
    rw [hstep, ih]
    cases h : create_from_dict pr.2 pr.1 with
    | episode e =>
      simp [mergeStep, h, seriesOps, List.filterMap_cons]
    | series s =>
      simp [mergeStep, h, seriesOps, List.filterMap_cons, mergeFold]
    | movie m =>
      simp [mergeStep, h, seriesOps, List.filterMap_cons]

theorem foldOccs_movies (st : AggState)
    (os : List (EmbyProfile × RawItem)) :
    (foldOccs st os).movies =
      mergeFold EmbyMovie.seen_by movieSetSeen st.movies (movieOps os) := by
  induction os generalizing st with
  | nil => rfl
  | cons pr rest ih =>
    have hstep : foldOccs st (pr :: rest) =
        foldOccs (mergeStep pr.1 st pr.2) rest := rfl
    rw [hstep, ih]
    cases h : create_from_dict pr.2 pr.1 with
    | episode e =>
      simp [mergeStep, h, movieOps, List.filterMap_cons]
    | series s =>
      simp [mergeStep, h, movieOps, List.filterMap_cons]
    | movie m =>
      simp [mergeStep, h, movieOps, List.filterMap_cons, mergeFold]

/-! ### Setter laws for the three variants -/

theorem epSeen_get (e : EmbyEpisode) (l : List String) :
    (epSetSeen e l).seen_by = l := rfl

theorem epSeen_comp (e : EmbyEpisode) (l l' : List String) :
    epSetSeen (epSetSeen e l) l' = epSetSeen e l' := rfl

theorem epSeen_id (e : EmbyEpisode) : epSetSeen e e.seen_by = e := rfl

theorem seriesSeen_get (s : EmbySeries) (l : List String) :
    (seriesSetSeen s l).seen_by = l := rfl

theorem seriesSeen_comp (s : EmbySeries) (l l' : List String) :
    seriesSetSeen (seriesSetSeen s l) l' = seriesSetSeen s l' := rfl

theorem seriesSeen_id (s : EmbySeries) : seriesSetSeen s s.seen_by = s := rfl

theorem movieSeen_get (m : EmbyMovie) (l : List String) :
    (movieSetSeen m l).seen_by = l := rfl

theorem movieSeen_comp (m : EmbyMovie) (l l' : List String) :
    movieSetSeen (movieSetSeen m l) l' = movieSetSeen m l' := rfl

theorem movieSeen_id (m : EmbyMovie) : movieSetSeen m m.seen_by = m := rfl

/-! ### `seen_by` characterisation of aggregated entries -/

theorem epOps_wf (os : List (EmbyProfile × RawItem)) :
    ∀ op ∈ epOps os,
      EmbyEpisode.seen_by op.2.1 = [] ∨
        EmbyEpisode.seen_by op.2.1 = [op.2.2] := by
  intro op hop
  unfold epOps at hop
  rw [List.mem_filterMap] at hop
  obtain ⟨pr, _, hmatch⟩ := hop
  cases h : create_from_dict pr.2 pr.1 with
  | episode e =>
    rw [h] at hmatch
    cases hmatch
    obtain ⟨-, he⟩ := create_eq_episode.mp h
    rw [he]
    show seenByInit pr.2 pr.1 = [] ∨ seenByInit pr.2 pr.1 = [pr.1.name]
    unfold seenByInit
    cases pr.2.UserData.Played <;> simp
  | series s => rw [h] at hmatch; cases hmatch
  | movie m => rw [h] at hmatch; cases hmatch

theorem seriesOps_wf (os : List (EmbyProfile × RawItem)) :
    ∀ op ∈ seriesOps os,
      EmbySeries.seen_by op.2.1 = [] ∨
        EmbySeries.seen_by op.2.1 = [op.2.2] := by
  intro op hop
  unfold seriesOps at hop
  rw [List.mem_filterMap] at hop
  obtain ⟨pr, _, hmatch⟩ := hop
  cases h : create_from_dict pr.2 pr.1 with
  | episode e => rw [h] at hmatch; cases hmatch
  | series s =>
    rw [h] at hmatch
    cases hmatch
    obtain ⟨-, hs⟩ := create_eq_series.mp h
    rw [hs]
    show seenByInit pr.2 pr.1 = [] ∨ seenByInit pr.2 pr.1 = [pr.1.name]
    unfold seenByInit
    cases pr.2.UserData.Played <;> simp
  | movie m => rw [h] at hmatch; cases hmatch

theorem movieOps_wf (os : List (EmbyProfile × RawItem)) :
    ∀ op ∈ movieOps os,
      EmbyMovie.seen_by op.2.1 = [] ∨
        EmbyMovie.seen_by op.2.1 = [op.2.2] := by
  intro op hop
  unfold movieOps at hop
  rw [List.mem_filterMap] at hop
  obtain ⟨pr, _, hmatch⟩ := hop
  cases h : create_from_dict pr.2 pr.1 with
  | episode e => rw [h] at hmatch; cases hmatch
  | series s => rw [h] at hmatch; cases hmatch
  | movie m =>
    rw [h] at hmatch
    cases hmatch
    obtain ⟨-, -, hm⟩ := create_eq_movie.mp h
    rw [hm]
    show seenByInit pr.2 pr.1 = [] ∨ seenByInit pr.2 pr.1 = [pr.1.name]
    unfold seenByInit
    cases pr.2.UserData.Played <;> simp

theorem episodes_seen_eq_collect {fetches : List (EmbyProfile × List RawItem)}
    {k : String} {e : EmbyEpisode}
    (h : lookupA (aggregate fetches).episodes k = some e) :
    e.seen_by =
      collectSeen EmbyEpisode.seen_by (epOps (occurrences fetches)) k := by
  rw [aggregate_eq_foldOccs, foldOccs_episodes] at h
  refine mergeFold_lookup_of_none EmbyEpisode.seen_by epSetSeen
    epSeen_get epSeen_comp epSeen_id ?_
    (fun op hop _ => epOps_wf _ op hop) h
  rfl

theorem series_seen_eq_collect {fetches : List (EmbyProfile × List RawItem)}
    {k : String} {s : EmbySeries}
    (h : lookupA (aggregate fetches).series k = some s) :
    s.seen_by =
      collectSeen EmbySeries.seen_by (seriesOps (occurrences fetches)) k := by
  rw [aggregate_eq_foldOccs, foldOccs_series] at h
  refine mergeFold_lookup_of_none EmbySeries.seen_by seriesSetSeen
    seriesSeen_get seriesSeen_comp seriesSeen_id ?_
    (fun op hop _ => seriesOps_wf _ op hop) h
  rfl

theorem movies_seen_eq_collect {fetches : List (EmbyProfile × List RawItem)}
    {k : String} {m : EmbyMovie}
    (h : lookupA (aggregate fetches).movies k = some m) :
    m.seen_by =
      collectSeen EmbyMovie.seen_by (movieOps (occurrences fetches)) k := by
  rw [aggregate_eq_foldOccs, foldOccs_movies] at h
  refine mergeFold_lookup_of_none EmbyMovie.seen_by movieSetSeen
    movieSeen_get movieSeen_comp movieSeen_id ?_
    (fun op hop _ => movieOps_wf _ op hop) h
  rfl

theorem mem_occurrences {fetches : List (EmbyProfile × List RawItem)}
    {pr : EmbyProfile × RawItem} :
    pr ∈ occurrences fetches ↔
      ∃ pf ∈ fetches, ∃ d ∈ pf.2, pr = (pf.1, d) := by
  simp [occurrences, List.mem_flatMap, List.mem_map, eq_comm]

theorem mem_collect_epOps
    (os : List (EmbyProfile × RawItem)) (k name : String) :
    name ∈ collectSeen EmbyEpisode.seen_by (epOps os) k ↔
      ∃ pr ∈ os, pr.2.itemType = "Episode" ∧ pr.2.Id = k ∧
        pr.2.UserData.Played = true ∧ pr.1.name = name := by
  constructor
  · intro hmem
    rw [collectSeen, List.mem_filterMap] at hmem
    obtain ⟨op, hop, hval⟩ := hmem
    by_cases hcond : op.1 = k ∧ EmbyEpisode.seen_by op.2.1 ≠ []
    · rw [if_pos hcond] at hval
      cases hval
      rw [epOps, List.mem_filterMap] at hop
      obtain ⟨pr, hpr, hmatch⟩ := hop
      cases h : create_from_dict pr.2 pr.1 with
      | episode e =>
        rw [h] at hmatch
        cases hmatch
        obtain ⟨hT, he⟩ := create_eq_episode.mp h
        refine ⟨pr, hpr, hT, ?_, ?_, rfl⟩
        · have : e.id = pr.2.Id := by rw [he]
          rw [← this]; exact hcond.1
        · have hsb : e.seen_by = seenByInit pr.2 pr.1 := by rw [he]
          have := hcond.2
          rw [hsb] at this
          exact (seenByInit_ne_nil_iff pr.2 pr.1).mp this
      | series s => rw [h] at hmatch; cases hmatch
      | movie m => rw [h] at hmatch; cases hmatch
    · rw [if_neg hcond] at hval
      cases hval
  · rintro ⟨pr, hpr, hT, hId, hPl, hnm⟩
    have h : create_from_dict pr.2 pr.1 = ClassifiedItem.episode
        { name := pr.2.Name, id := pr.2.Id, seen_by := seenByInit pr.2 pr.1,
          profile := pr.1, series_id := pr.2.SeriesId,
          season := pr.2.ParentIndexNumber.getD 0,
          season_name := pr.2.SeasonName, episode := pr.2.IndexNumber } :=
      create_eq_episode.mpr ⟨hT, rfl⟩
    rw [collectSeen, List.mem_filterMap]
    refine ⟨(pr.2.Id,
      { name := pr.2.Name, id := pr.2.Id, seen_by := seenByInit pr.2 pr.1,
        profile := pr.1, series_id := pr.2.SeriesId,
        season := pr.2.ParentIndexNumber.getD 0,
        season_name := pr.2.SeasonName, episode := pr.2.IndexNumber },
      pr.1.name), ?_, ?_⟩
    · rw [epOps, List.mem_filterMap]
      exact ⟨pr, hpr, by rw [h]⟩
    · have hne : seenByInit pr.2 pr.1 ≠ [] :=
        (seenByInit_ne_nil_iff pr.2 pr.1).mpr hPl
      rw [if_pos ⟨hId, hne⟩, hnm]

theorem mem_collect_seriesOps
    (os : List (EmbyProfile × RawItem)) (k name : String) :
    name ∈ collectSeen EmbySeries.seen_by (seriesOps os) k ↔
      ∃ pr ∈ os, pr.2.itemType = "Series" ∧ pr.2.Id = k ∧
        pr.2.UserData.Played = true ∧ pr.1.name = name := by
  constructor
  · intro hmem
    rw [collectSeen, List.mem_filterMap] at hmem
    obtain ⟨op, hop, hval⟩ := hmem
    by_cases hcond : op.1 = k ∧ EmbySeries.seen_by op.2.1 ≠ []
    · rw [if_pos hcond] at hval
      cases hval
      rw [seriesOps, List.mem_filterMap] at hop
      obtain ⟨pr, hpr, hmatch⟩ := hop
      cases h : create_from_dict pr.2 pr.1 with
      | episode e => rw [h] at hmatch; cases hmatch
      | series s =>
        rw [h] at hmatch
        cases hmatch
        obtain ⟨hT, hs⟩ := create_eq_series.mp h
        refine ⟨pr, hpr, hT, ?_, ?_, rfl⟩
        · have : s.id = pr.2.Id := by rw [hs]
          rw [← this]; exact hcond.1
        · have hsb : s.seen_by = seenByInit pr.2 pr.1 := by rw [hs]
          have := hcond.2
          rw [hsb] at this
          exact (seenByInit_ne_nil_iff pr.2 pr.1).mp this
      | movie m => rw [h] at hmatch; cases hmatch
    · rw [if_neg hcond] at hval
      cases hval
  · rintro ⟨pr, hpr, hT, hId, hPl, hnm⟩
    have h : create_from_dict pr.2 pr.1 = ClassifiedItem.series
        { name := pr.2.Name, id := pr.2.Id, seen_by := seenByInit pr.2 pr.1,
          profile := pr.1 } :=
      create_eq_series.mpr ⟨hT, rfl⟩
    rw [collectSeen, List.mem_filterMap]
    refine ⟨(pr.2.Id,
      ({ name := pr.2.Name, id := pr.2.Id, seen_by := seenByInit pr.2 pr.1,
         profile := pr.1 } : EmbySeries),
      pr.1.name), ?_, ?_⟩
    · rw [seriesOps, List.mem_filterMap]
      exact ⟨pr, hpr, by rw [h]⟩
    · have hne : seenByInit pr.2 pr.1 ≠ [] :=
        (seenByInit_ne_nil_iff pr.2 pr.1).mpr hPl
      rw [if_pos ⟨hId, hne⟩, hnm]

theorem mem_collect_movieOps
    (os : List (EmbyProfile × RawItem)) (k name : String) :
    name ∈ collectSeen EmbyMovie.seen_by (movieOps os) k ↔
      ∃ pr ∈ os, pr.2.itemType ≠ "Episode" ∧ pr.2.itemType ≠ "Series" ∧
        pr.2.Id = k ∧ pr.2.UserData.Played = true ∧ pr.1.name = name := by
  constructor
  · intro hmem
    rw [collectSeen, List.mem_filterMap] at hmem
    obtain ⟨op, hop, hval⟩ := hmem
    by_cases hcond : op.1 = k ∧ EmbyMovie.seen_by op.2.1 ≠ []
    · rw [if_pos hcond] at hval
      cases hval
      rw [movieOps, List.mem_filterMap] at hop
      obtain ⟨pr, hpr, hmatch⟩ := hop
      cases h : create_from_dict pr.2 pr.1 with
      | episode e => rw [h] at hmatch; cases hmatch
      | series s => rw [h] at hmatch; cases hmatch
      | movie m =>
        rw [h] at hmatch
        cases hmatch
        obtain ⟨hT1, hT2, hm⟩ := create_eq_movie.mp h
        refine ⟨pr, hpr, hT1, hT2, ?_, ?_, rfl⟩
        · have : m.id = pr.2.Id := by rw [hm]
          rw [← this]; exact hcond.1
        · have hsb : m.seen_by = seenByInit pr.2 pr.1 := by rw [hm]
          have := hcond.2
          rw [hsb] at this
          exact (seenByInit_ne_nil_iff pr.2 pr.1).mp this
    · rw [if_neg hcond] at hval
      cases hval
  · rintro ⟨pr, hpr, hT1, hT2, hId, hPl, hnm⟩
    have h : create_from_dict pr.2 pr.1 = ClassifiedItem.movie
        { name := pr.2.Name, id := pr.2.Id, seen_by := seenByInit pr.2 pr.1,
          profile := pr.1 } :=
      create_eq_movie.mpr ⟨hT1, hT2, rfl⟩
    rw [collectSeen, List.mem_filterMap]
    refine ⟨(pr.2.Id,
      ({ name := pr.2.Name, id := pr.2.Id, seen_by := seenByInit pr.2 pr.1,
         profile := pr.1 } : EmbyMovie),
      pr.1.name), ?_, ?_⟩
    · rw [movieOps, List.mem_filterMap]
      exact ⟨pr, hpr, by rw [h]⟩
    · have hne : seenByInit pr.2 pr.1 ≠ [] :=
        (seenByInit_ne_nil_iff pr.2 pr.1).mpr hPl
      rw [if_pos ⟨hId, hne⟩, hnm]

/-! ### Presence of aggregated entries -/

theorem mergeFold_lookup_none_iff {α : Type} (sb : α → List String)
    (setSb : α → List String → α)
    (hget : ∀ a l, sb (setSb a l) = l)
    (hcomp : ∀ a l l', setSb (setSb a l) l' = setSb a l')
    (hid : ∀ a, setSb a (sb a) = a)
    (ops : List (String × α × String)) (m : List (String × α)) (k : String) :
    lookupA (mergeFold sb setSb m ops) k = none ↔
      (lookupA m k = none ∧ ∀ op ∈ ops, op.1 ≠ k) := by
  induction ops generalizing m with
  | nil => simp [mergeFold]
  | cons op rest ih =>
    obtain ⟨k', it, nm⟩ := op
    have hfold : mergeFold sb setSb m ((k', it, nm) :: rest) =
        mergeFold sb setSb (mergeOne sb setSb m k' it nm) rest := rfl
    rw [hfold]
    cases hm : lookupA m k with
    | some a =>
      by_cases hk : k' = k
      · subst hk
        cases h2 : lookupA (mergeOne sb setSb m k' it nm) k' with
        | none =>
          exfalso
          revert h2
          unfold mergeOne
          rw [hm]
          by_cases hsb : sb it = []
          · simp [hsb, hm]
          · simp [hsb, lookupA_updateSeen_self sb setSb nm hm]
        | some b =>
          rw [mergeFold_lookup_some sb setSb hget hcomp hid h2]
          simp [hm]
      · have h2 : lookupA (mergeOne sb setSb m k' it nm) k = some a := by
          rw [mergeOne_lookup_ne sb setSb hk]; exact hm
        rw [mergeFold_lookup_some sb setSb hget hcomp hid h2]
        simp [hm]
    | none =>
      by_cases hk : k' = k
      · subst hk
        have hone : mergeOne sb setSb m k' it nm = m ++ [(k', it)] := by
          simp [mergeOne, hm]
        have h2 : lookupA (m ++ [(k', it)]) k' = some it := by
          rw [lookupA_append_of_none hm]
          simp [lookupA]
        rw [hone, mergeFold_lookup_some sb setSb hget hcomp hid h2]
        simp
      · have h2 : lookupA (mergeOne sb setSb m k' it nm) k = none := by
          rw [mergeOne_lookup_ne sb setSb hk]; exact hm
        rw [ih (mergeOne sb setSb m k' it nm)]
        simp [h2, hm, hk]

theorem epOps_key_iff (os : List (EmbyProfile × RawItem)) (k : String) :
    (∃ op ∈ epOps os, op.1 = k) ↔
      ∃ pr ∈ os, pr.2.itemType = "Episode" ∧ pr.2.Id = k := by
  constructor
  · rintro ⟨op, hop, hk⟩
    rw [epOps, List.mem_filterMap] at hop
    obtain ⟨pr, hpr, hmatch⟩ := hop
    cases h : create_from_dict pr.2 pr.1 with
    | episode e =>
      rw [h] at hmatch
      cases hmatch
      obtain ⟨hT, he⟩ := create_eq_episode.mp h
      refine ⟨pr, hpr, hT, ?_⟩
      have hid' : e.id = pr.2.Id := by rw [he]
      rw [← hid']; exact hk
    | series s => rw [h] at hmatch; cases hmatch
    | movie m => rw [h] at hmatch; cases hmatch
  · rintro ⟨pr, hpr, hT, hId⟩
    have h : create_from_dict pr.2 pr.1 = ClassifiedItem.episode
        { name := pr.2.Name, id := pr.2.Id, seen_by := seenByInit pr.2 pr.1,
          profile := pr.1, series_id := pr.2.SeriesId,
          season := pr.2.ParentIndexNumber.getD 0,
          season_name := pr.2.SeasonName, episode := pr.2.IndexNumber } :=
      create_eq_episode.mpr ⟨hT, rfl⟩
    refine ⟨(pr.2.Id,
      { name := pr.2.Name, id := pr.2.Id, seen_by := seenByInit pr.2 pr.1,
        profile := pr.1, series_id := pr.2.SeriesId,
        season := pr.2.ParentIndexNumber.getD 0,
        season_name := pr.2.SeasonName, episode := pr.2.IndexNumber },
      pr.1.name), ?_, hId⟩
    rw [epOps, List.mem_filterMap]
    exact ⟨pr, hpr, by rw [h]⟩

theorem seriesOps_key_iff (os : List (EmbyProfile × RawItem)) (k : String) :
    (∃ op ∈ seriesOps os, op.1 = k) ↔
      ∃ pr ∈ os, pr.2.itemType = "Series" ∧ pr.2.Id = k := by
  constructor
  · rintro ⟨op, hop, hk⟩
    rw [seriesOps, List.mem_filterMap] at hop
    obtain ⟨pr, hpr, hmatch⟩ := hop
    cases h : create_from_dict pr.2 pr.1 with
    | episode e => rw [h] at hmatch; cases hmatch
    | series s =>
      rw [h] at hmatch
      cases hmatch
      obtain ⟨hT, hs⟩ := create_eq_series.mp h
      refine ⟨pr, hpr, hT, ?_⟩
      have hid' : s.id = pr.2.Id := by rw [hs]
      rw [← hid']; exact hk
    | movie m => rw [h] at hmatch; cases hmatch
  · rintro ⟨pr, hpr, hT, hId⟩
    have h : create_from_dict pr.2 pr.1 = ClassifiedItem.series
        { name := pr.2.Name, id := pr.2.Id, seen_by := seenByInit pr.2 pr.1,
          profile := pr.1 } :=
      create_eq_series.mpr ⟨hT, rfl⟩
    refine ⟨(pr.2.Id,
      ({ name := pr.2.Name, id := pr.2.Id, seen_by := seenByInit pr.2 pr.1,
         profile := pr.1 } : EmbySeries),
      pr.1.name), ?_, hId⟩
    rw [seriesOps, List.mem_filterMap]
    exact ⟨pr, hpr, by rw [h]⟩

theorem movieOps_key_iff (os : List (EmbyProfile × RawItem)) (k : String) :
    (∃ op ∈ movieOps os, op.1 = k) ↔
      ∃ pr ∈ os, pr.2.itemType ≠ "Episode" ∧ pr.2.itemType ≠ "Series" ∧
        pr.2.Id = k := by
  constructor
  · rintro ⟨op, hop, hk⟩
    rw [movieOps, List.mem_filterMap] at hop
    obtain ⟨pr, hpr, hmatch⟩ := hop
    cases h : create_from_dict pr.2 pr.1 with
    | episode e => rw [h] at hmatch; cases hmatch
    | series s => rw [h] at hmatch; cases hmatch
    | movie m =>
      rw [h] at hmatch
      cases hmatch
      obtain ⟨hT1, hT2, hm2⟩ := create_eq_movie.mp h
      refine ⟨pr, hpr, hT1, hT2, ?_⟩
      have hid' : m.id = pr.2.Id := by rw [hm2]
      rw [← hid']; exact hk
  · rintro ⟨pr, hpr, hT1, hT2, hId⟩
    have h : create_from_dict pr.2 pr.1 = ClassifiedItem.movie
        { name := pr.2.Name, id := pr.2.Id, seen_by := seenByInit pr.2 pr.1,
          profile := pr.1 } :=
      create_eq_movie.mpr ⟨hT1, hT2, rfl⟩
    refine ⟨(pr.2.Id,
      ({ name := pr.2.Name, id := pr.2.Id, seen_by := seenByInit pr.2 pr.1,
         profile := pr.1 } : EmbyMovie),
      pr.1.name), ?_, hId⟩
    rw [movieOps, List.mem_filterMap]
    exact ⟨pr, hpr, by rw [h]⟩

theorem episodes_lookup_none_iff
    (fetches : List (EmbyProfile × List RawItem)) (k : String) :
    lookupA (aggregate fetches).episodes k = none ↔
      ∀ pf ∈ fetches, ∀ d ∈ pf.2,
        ¬ (d.itemType = "Episode" ∧ d.Id = k) := by
  rw [aggregate_eq_foldOccs, foldOccs_episodes,
    mergeFold_lookup_none_iff _ _ epSeen_get epSeen_comp epSeen_id]
  constructor
  · rintro ⟨-, hall⟩ pf hpf d hd hcon
    obtain ⟨op, hop, hk⟩ := (epOps_key_iff (occurrences fetches) k).mpr
      ⟨(pf.1, d), mem_occurrences.mpr ⟨pf, hpf, d, hd, rfl⟩, hcon.1, hcon.2⟩
    exact hall op hop hk
  · intro hall
    refine ⟨rfl, fun op hop hk => ?_⟩
    obtain ⟨pr, hpr, hT, hId⟩ :=
      (epOps_key_iff (occurrences fetches) k).mp ⟨op, hop, hk⟩
    obtain ⟨pf, hpf, d, hd, rfl⟩ := mem_occurrences.mp hpr
    exact hall pf hpf d hd ⟨hT, hId⟩

theorem series_lookup_none_iff
    (fetches : List (EmbyProfile × List RawItem)) (k : String) :
    lookupA (aggregate fetches).series k = none ↔
      ∀ pf ∈ fetches, ∀ d ∈ pf.2,
        ¬ (d.itemType = "Series" ∧ d.Id = k) := by
  rw [aggregate_eq_foldOccs, foldOccs_series,
    mergeFold_lookup_none_iff _ _ seriesSeen_get seriesSeen_comp seriesSeen_id]
  constructor
  · rintro ⟨-, hall⟩ pf hpf d hd hcon
    obtain ⟨op, hop, hk⟩ := (seriesOps_key_iff (occurrences fetches) k).mpr
      ⟨(pf.1, d), mem_occurrences.mpr ⟨pf, hpf, d, hd, rfl⟩, hcon.1, hcon.2⟩
    exact hall op hop hk
  · intro hall
    refine ⟨rfl, fun op hop hk => ?_⟩
    obtain ⟨pr, hpr, hT, hId⟩ :=
      (seriesOps_key_iff (occurrences fetches) k).mp ⟨op, hop, hk⟩
    obtain ⟨pf, hpf, d, hd, rfl⟩ := mem_occurrences.mp hpr
    exact hall pf hpf d hd ⟨hT, hId⟩

theorem movies_lookup_none_iff
    (fetches : List (EmbyProfile × List RawItem)) (k : String) :
    lookupA (aggregate fetches).movies k = none ↔
      ∀ pf ∈ fetches, ∀ d ∈ pf.2,
        ¬ (d.itemType ≠ "Episode" ∧ d.itemType ≠ "Series" ∧ d.Id = k) := by
  rw [aggregate_eq_foldOccs, foldOccs_movies,
    mergeFold_lookup_none_iff _ _ movieSeen_get movieSeen_comp movieSeen_id]
  constructor
  · rintro ⟨-, hall⟩ pf hpf d hd hcon
    obtain ⟨op, hop, hk⟩ := (movieOps_key_iff (occurrences fetches) k).mpr
      ⟨(pf.1, d), mem_occurrences.mpr ⟨pf, hpf, d, hd, rfl⟩,
        hcon.1, hcon.2.1, hcon.2.2⟩
    exact hall op hop hk
  · intro hall
    refine ⟨rfl, fun op hop hk => ?_⟩
    obtain ⟨pr, hpr, hT1, hT2, hId⟩ :=
      (movieOps_key_iff (occurrences fetches) k).mp ⟨op, hop, hk⟩
    obtain ⟨pf, hpf, d, hd, rfl⟩ := mem_occurrences.mp hpr
    exact hall pf hpf d hd ⟨hT1, hT2, hId⟩

/-! ### Membership characterisation over the fetch list -/

theorem episodes_mem_seen_iff (fetches : List (EmbyProfile × List RawItem))
    (k name : String) {e : EmbyEpisode}
    (he : lookupA (aggregate fetches).episodes k = some e) :
    name ∈ e.seen_by ↔ ∃ pf ∈ fetches, ∃ d ∈ pf.2,
      d.itemType = "Episode" ∧ d.Id = k ∧ d.UserData.Played = true ∧
        pf.1.name = name := by
  rw [episodes_seen_eq_collect he, mem_collect_epOps]
  constructor
  · rintro ⟨pr, hpr, h1, h2, h3, h4⟩
    obtain ⟨pf, hpf, d, hd, rfl⟩ := mem_occurrences.mp hpr
    exact ⟨pf, hpf, d, hd, h1, h2, h3, h4⟩
  · rintro ⟨pf, hpf, d, hd, h1, h2, h3, h4⟩
    exact ⟨(pf.1, d), mem_occurrences.mpr ⟨pf, hpf, d, hd, rfl⟩,
      h1, h2, h3, h4⟩

theorem series_mem_seen_iff (fetches : List (EmbyProfile × List RawItem))
    (k name : String) {s : EmbySeries}
    (hs : lookupA (aggregate fetches).series k = some s) :
    name ∈ s.seen_by ↔ ∃ pf ∈ fetches, ∃ d ∈ pf.2,
      d.itemType = "Series" ∧ d.Id = k ∧ d.UserData.Played = true ∧
        pf.1.name = name := by
  rw [series_seen_eq_collect hs, mem_collect_seriesOps]
  constructor
  · rintro ⟨pr, hpr, h1, h2, h3, h4⟩
    obtain ⟨pf, hpf, d, hd, rfl⟩ := mem_occurrences.mp hpr
    exact ⟨pf, hpf, d, hd, h1, h2, h3, h4⟩
  · rintro ⟨pf, hpf, d, hd, h1, h2, h3, h4⟩
    exact ⟨(pf.1, d), mem_occurrences.mpr ⟨pf, hpf, d, hd, rfl⟩,
      h1, h2, h3, h4⟩

theorem movies_mem_seen_iff (fetches : List (EmbyProfile × List RawItem))
    (k name : String) {m : EmbyMovie}
    (hm : lookupA (aggregate fetches).movies k = some m) :
    name ∈ m.seen_by ↔ ∃ pf ∈ fetches, ∃ d ∈ pf.2,
      d.itemType ≠ "Episode" ∧ d.itemType ≠ "Series" ∧ d.Id = k ∧
        d.UserData.Played = true ∧ pf.1.name = name := by
  rw [movies_seen_eq_collect hm, mem_collect_movieOps]
  constructor
  · rintro ⟨pr, hpr, h1, h2, h3, h4, h5⟩
    obtain ⟨pf, hpf, d, hd, rfl⟩ := mem_occurrences.mp hpr
    exact ⟨pf, hpf, d, hd, h1, h2, h3, h4, h5⟩
  · rintro ⟨pf, hpf, d, hd, h1, h2, h3, h4, h5⟩
    exact ⟨(pf.1, d), mem_occurrences.mpr ⟨pf, hpf, d, hd, rfl⟩,
      h1, h2, h3, h4, h5⟩

theorem exists_mem_perm {β : Type} {l l' : List β} (h : l.Perm l')
    (p : β → Prop) : (∃ x ∈ l, p x) ↔ ∃ x ∈ l', p x := by
  constructor
  · rintro ⟨x, hx, hp⟩; exact ⟨x, h.mem_iff.mp hx, hp⟩
  · rintro ⟨x, hx, hp⟩; exact ⟨x, h.mem_iff.mpr hx, hp⟩

/-! ### Claim C1 -/

/-- **C1.**  After the aggregation fold, for every entry of each of the
three mappings, a profile name is in its `seen_by` exactly when that
profile's fetch result contained a record of the same variant class with
that id and a true played flag; consequently (last three conjuncts, plus
the presence conjuncts) the `seen_by` membership — and the presence of the
entry itself — is unchanged under any permutation of the profile
processing order. -/
theorem C1_seen_by_exact_and_order_independent
    (fetches fetches' : List (EmbyProfile × List RawItem))
    (hperm : fetches.Perm fetches') (k name : String) :
    (∀ e, lookupA (aggregate fetches).episodes k = some e →
      (name ∈ e.seen_by ↔ ∃ pf ∈ fetches, ∃ d ∈ pf.2,
        d.itemType = "Episode" ∧ d.Id = k ∧ d.UserData.Played = true ∧
          pf.1.name = name)) ∧
    (∀ s, lookupA (aggregate fetches).series k = some s →
      (name ∈ s.seen_by ↔ ∃ pf ∈ fetches, ∃ d ∈ pf.2,
        d.itemType = "Series" ∧ d.Id = k ∧ d.UserData.Played = true ∧
          pf.1.name = name)) ∧
    (∀ m, lookupA (aggregate fetches).movies k = some m →
      (name ∈ m.seen_by ↔ ∃ pf ∈ fetches, ∃ d ∈ pf.2,
        d.itemType ≠ "Episode" ∧ d.itemType ≠ "Series" ∧ d.Id = k ∧
          d.UserData.Played = true ∧ pf.1.name = name)) ∧
    (∀ e e', lookupA (aggregate fetches).episodes k = some e →
      lookupA (aggregate fetches').episodes k = some e' →
      (name ∈ e.seen_by ↔ name ∈ e'.seen_by)) ∧
    (∀ s s', lookupA (aggregate fetches).series k = some s →
      lookupA (aggregate fetches').series k = some s' →
      (name ∈ s.seen_by ↔ name ∈ s'.seen_by)) ∧
    (∀ m m', lookupA (aggregate fetches).movies k = some m →
      lookupA (aggregate fetches').movies k = some m' →
      (name ∈ m.seen_by ↔ name ∈ m'.seen_by)) ∧
    (lookupA (aggregate fetches).episodes k = none ↔
      lookupA (aggregate fetches').episodes k = none) ∧
    (lookupA (aggregate fetches).series k = none ↔
      lookupA (aggregate fetches').series k = none) ∧
    (lookupA (aggregate fetches).movies k = none ↔
      lookupA (aggregate fetches').movies k = none) := by
  refine ⟨fun e he => episodes_mem_seen_iff fetches k name he,
    fun s hs => series_mem_seen_iff fetches k name hs,
    fun m hm => movies_mem_seen_iff fetches k name hm,
    ?_, ?_, ?_, ?_, ?_, ?_⟩
  · intro e e' he he'
    rw [episodes_mem_seen_iff fetches k name he,
      episodes_mem_seen_iff fetches' k name he']
    exact exists_mem_perm hperm _
  · intro s s' hs hs'
    rw [series_mem_seen_iff fetches k name hs,
      series_mem_seen_iff fetches' k name hs']
    exact exists_mem_perm hperm _
  · intro m m' hm hm'
    rw [movies_mem_seen_iff fetches k name hm,
      movies_mem_seen_iff fetches' k name hm']
    exact exists_mem_perm hperm _
  · rw [episodes_lookup_none_iff, episodes_lookup_none_iff]
    constructor
    · intro h pf hpf; exact h pf (hperm.mem_iff.mpr hpf)
    · intro h pf hpf; exact h pf (hperm.mem_iff.mp hpf)
  · rw [series_lookup_none_iff, series_lookup_none_iff]
    constructor
    · intro h pf hpf; exact h pf (hperm.mem_iff.mpr hpf)
    · intro h pf hpf; exact h pf (hperm.mem_iff.mp hpf)
  · rw [movies_lookup_none_iff, movies_lookup_none_iff]
    constructor
    · intro h pf hpf; exact h pf (hperm.mem_iff.mpr hpf)
    · intro h pf hpf; exact h pf (hperm.mem_iff.mp hpf)

/-- Witness for C1 at the concrete two-profile input `fetchesA` and its
permutation `fetchesB`: the movie `"m1"` is seen exactly by `"P1"`. -/
theorem C1_witness :
    fetchesA.Perm fetchesB ∧
    lookupA (aggregate fetchesA).movies "m1" =
      some { name := "Foo", id := "m1", seen_by := ["P1"],
             profile := profP } ∧
    (("P1" : String) ∈
        ({ name := "Foo", id := "m1", seen_by := ["P1"],
           profile := profP } : EmbyMovie).seen_by ↔
      ∃ pf ∈ fetchesA, ∃ d ∈ pf.2,
        d.itemType ≠ "Episode" ∧ d.itemType ≠ "Series" ∧ d.Id = "m1" ∧
          d.UserData.Played = true ∧ pf.1.name = "P1") :=
  ⟨by decide, by decide,
    (C1_seen_by_exact_and_order_independent fetchesA fetchesB (by decide)
      "m1" "P1").2.2.1 _ (by decide)⟩

/-! ### Claim C7 -/

/-- **C7.**  Monotonicity of the aggregation fold: once a profile name is
in an entry's `seen_by`, folding any further sightings leaves the entry
present and keeps the name in its `seen_by`, for each of the three
mappings. -/
theorem C7_seen_by_monotone (st : AggState)
    (os : List (EmbyProfile × RawItem)) (k name : String) :
    (∀ e, lookupA st.episodes k = some e → name ∈ e.seen_by →
      ∃ e', lookupA (foldOccs st os).episodes k = some e' ∧
        name ∈ e'.seen_by) ∧
    (∀ s, lookupA st.series k = some s → name ∈ s.seen_by →
      ∃ s', lookupA (foldOccs st os).series k = some s' ∧
        name ∈ s'.seen_by) ∧
    (∀ m, lookupA st.movies k = some m → name ∈ m.seen_by →
      ∃ m', lookupA (foldOccs st os).movies k = some m' ∧
        name ∈ m'.seen_by) := by
  refine ⟨?_, ?_, ?_⟩
  · intro e he hm
    rw [foldOccs_episodes]
    refine ⟨_, mergeFold_lookup_some EmbyEpisode.seen_by epSetSeen
      epSeen_get epSeen_comp epSeen_id he, ?_⟩
    rw [epSeen_get]
    exact List.mem_append_left _ hm
  · intro s hs hm
    rw [foldOccs_series]
    refine ⟨_, mergeFold_lookup_some EmbySeries.seen_by seriesSetSeen
      seriesSeen_get seriesSeen_comp seriesSeen_id hs, ?_⟩
    rw [seriesSeen_get]
    exact List.mem_append_left _ hm
  · intro m hm' hm
    rw [foldOccs_movies]
    refine ⟨_, mergeFold_lookup_some EmbyMovie.seen_by movieSetSeen
      movieSeen_get movieSeen_comp movieSeen_id hm', ?_⟩
    rw [movieSeen_get]
    exact List.mem_append_left _ hm

/-- Witness for C7: in the concrete state `stOne`, `"P1"` has seen episode
`"e1"`, and stays in its `seen_by` after folding one more sighting by the
second profile. -/
theorem C7_witness :
    lookupA stOne.episodes "e1" =
      some { name := "E1", id := "e1", seen_by := ["P1"], profile := profP,
             series_id := "s1", season := 1, season_name := "Season 1",
             episode := 1 } ∧
    (∃ e', lookupA ((foldOccs stOne
          [(profQ, rawEpRec "E1" "e1" "s1" (some 1) "Season 1" 1
              true)]).episodes)
        "e1" = some e' ∧ ("P1" : String) ∈ e'.seen_by) :=
  ⟨by decide,
    (C7_seen_by_monotone stOne
      [(profQ, rawEpRec "E1" "e1" "s1" (some 1) "Season 1" 1 true)]
      "e1" "P1").1
      { name := "E1", id := "e1", seen_by := ["P1"], profile := profP,
        series_id := "s1", season := 1, season_name := "Season 1",
        episode := 1 }
      (by decide) (by decide)⟩

/-! ### Claim C8 -/

/-- **C8.**  The classifier contract: a record with `Type = "Episode"`
yields exactly an episode, `Type = "Series"` exactly a series, and any
other `Type` the fallback movie; in each case `name` comes from `Name`,
`id` from `Id`, and `seen_by` is `[p.name]` when the played flag is true
and `[]` otherwise. -/
theorem C8_classifier_contract (d : RawItem) (p : EmbyProfile) :
    (d.itemType = "Episode" →
      create_from_dict d p = ClassifiedItem.episode
        { name := d.Name, id := d.Id,
          seen_by := if d.UserData.Played then [p.name] else [],
          profile := p, series_id := d.SeriesId,
          season := d.ParentIndexNumber.getD 0,
          season_name := d.SeasonName, episode := d.IndexNumber }) ∧
    (d.itemType = "Series" →
      create_from_dict d p = ClassifiedItem.series
        { name := d.Name, id := d.Id,
          seen_by := if d.UserData.Played then [p.name] else [],
          profile := p }) ∧
    (d.itemType ≠ "Episode" → d.itemType ≠ "Series" →
      create_from_dict d p = ClassifiedItem.movie
        { name := d.Name, id := d.Id,
          seen_by := if d.UserData.Played then [p.name] else [],
          profile := p }) :=
  ⟨fun h => create_eq_episode.mpr ⟨h, rfl⟩,
   fun h => create_eq_series.mpr ⟨h, rfl⟩,
   fun h1 h2 => create_eq_movie.mpr ⟨h1, h2, rfl⟩⟩

/-- Witness for C8 at concrete records of each of the three types. -/
theorem C8_witness :
    create_from_dict (rawEpRec "E1" "e1" "s1" (some 1) "Season 1" 1 true)
        profP = ClassifiedItem.episode
      { name := "E1", id := "e1", seen_by := ["P1"], profile := profP,
        series_id := "s1", season := 1, season_name := "Season 1",
        episode := 1 } ∧
    create_from_dict (rawMovieRec "Foo" "m1" false) profP =
      ClassifiedItem.movie
        { name := "Foo", id := "m1", seen_by := [], profile := profP } :=
  ⟨by
    have h := (C8_classifier_contract
      (rawEpRec "E1" "e1" "s1" (some 1) "Season 1" 1 true) profP).1
      (by decide)
    exact h,
   by
    have h := (C8_classifier_contract (rawMovieRec "Foo" "m1" false)
      profP).2.2 (by decide) (by decide)
    exact h⟩

/-! ### Claim C9 -/

/-- **C9.**  The frame property of one merge step on an id that is already
present: only the canonical entry's `seen_by` changes (extended by the
profile name when the new sighting is played, untouched otherwise); its
remaining fields, the entries under every other key, and the other two
mappings are unchanged. -/
theorem C9_merge_frame (p : EmbyProfile) (st : AggState) (d : RawItem) :
    (∀ e a, create_from_dict d p = ClassifiedItem.episode e →
      lookupA st.episodes e.id = some a →
      (mergeStep p st d).series = st.series ∧
      (mergeStep p st d).movies = st.movies ∧
      (∀ k', k' ≠ e.id →
        lookupA (mergeStep p st d).episodes k' = lookupA st.episodes k') ∧
      lookupA (mergeStep p st d).episodes e.id = some
        { name := a.name, id := a.id,
          seen_by := a.seen_by ++
            (if e.seen_by = [] then [] else [p.name]),
          profile := a.profile, series_id := a.series_id,
          season := a.season, season_name := a.season_name,
          episode := a.episode }) ∧
    (∀ s a, create_from_dict d p = ClassifiedItem.series s →
      lookupA st.series s.id = some a →
      (mergeStep p st d).episodes = st.episodes ∧
      (mergeStep p st d).movies = st.movies ∧
      (∀ k', k' ≠ s.id →
        lookupA (mergeStep p st d).series k' = lookupA st.series k') ∧
      lookupA (mergeStep p st d).series s.id = some
        { name := a.name, id := a.id,
          seen_by := a.seen_by ++
            (if s.seen_by = [] then [] else [p.name]),
          profile := a.profile }) ∧
    (∀ m a, create_from_dict d p = ClassifiedItem.movie m →
      lookupA st.movies m.id = some a →
      (mergeStep p st d).episodes = st.episodes ∧
      (mergeStep p st d).series = st.series ∧
      (∀ k', k' ≠ m.id →
        lookupA (mergeStep p st d).movies k' = lookupA st.movies k') ∧
      lookupA (mergeStep p st d).movies m.id = some
        { name := a.name, id := a.id,
          seen_by := a.seen_by ++
            (if m.seen_by = [] then [] else [p.name]),
          profile := a.profile }) := by
  refine ⟨?_, ?_, ?_⟩
  · intro e a hc ha
    refine ⟨by simp [mergeStep, hc], by simp [mergeStep, hc], ?_, ?_⟩
    · intro k' hk'
      simp only [mergeStep, hc]
      exact mergeOne_lookup_ne _ _ (Ne.symm hk')
    · simp only [mergeStep, hc]
      unfold mergeOne
      rw [ha]
      by_cases hsb : e.seen_by = []
      · rw [if_pos ((show EmbyEpisode.seen_by e = e.seen_by from rfl) ▸ hsb),
          if_pos hsb, List.append_nil]
        exact ha
      · rw [if_neg ((show EmbyEpisode.seen_by e = e.seen_by from rfl) ▸ hsb),
          if_neg hsb]
        exact lookupA_updateSeen_self _ _ p.name ha
  · intro s a hc ha
    refine ⟨by simp [mergeStep, hc], by simp [mergeStep, hc], ?_, ?_⟩
    · intro k' hk'
      simp only [mergeStep, hc]
      exact mergeOne_lookup_ne _ _ (Ne.symm hk')
    · simp only [mergeStep, hc]
      unfold mergeOne
      rw [ha]
      by_cases hsb : s.seen_by = []
      · rw [if_pos ((show EmbySeries.seen_by s = s.seen_by from rfl) ▸ hsb),
          if_pos hsb, List.append_nil]
        exact ha
      · rw [if_neg ((show EmbySeries.seen_by s = s.seen_by from rfl) ▸ hsb),
          if_neg hsb]
        exact lookupA_updateSeen_self _ _ p.name ha
  · intro m a hc ha
    refine ⟨by simp [mergeStep, hc], by simp [mergeStep, hc], ?_, ?_⟩
    · intro k' hk'
      simp only [mergeStep, hc]
      exact mergeOne_lookup_ne _ _ (Ne.symm hk')
    · simp only [mergeStep, hc]
      unfold mergeOne
      rw [ha]
      by_cases hsb : m.seen_by = []
      · rw [if_pos ((show EmbyMovie.seen_by m = m.seen_by from rfl) ▸ hsb),
          if_pos hsb, List.append_nil]
        exact ha
      · rw [if_neg ((show EmbyMovie.seen_by m = m.seen_by from rfl) ▸ hsb),
          if_neg hsb]
        exact lookupA_updateSeen_self _ _ p.name ha

/-- Witness for C9: merging a played sighting of episode `"e1"` by the
second profile into `stOne` appends `"P2"` and leaves every other field
unchanged. -/
theorem C9_witness :
    create_from_dict (rawEpRec "E1x" "e1" "s9" (some 3) "S3" 7 true)
        profQ = ClassifiedItem.episode
      { name := "E1x", id := "e1", seen_by := ["P2"], profile := profQ,
        series_id := "s9", season := 3, season_name := "S3",
        episode := 7 } ∧
    ((mergeStep profQ stOne
        (rawEpRec "E1x" "e1" "s9" (some 3) "S3" 7 true)).series =
          stOne.series ∧
     (mergeStep profQ stOne
        (rawEpRec "E1x" "e1" "s9" (some 3) "S3" 7 true)).movies =
          stOne.movies ∧
     (∀ k', k' ≠ "e1" →
        lookupA (mergeStep profQ stOne
          (rawEpRec "E1x" "e1" "s9" (some 3) "S3" 7 true)).episodes k' =
        lookupA stOne.episodes k') ∧
     lookupA (mergeStep profQ stOne
        (rawEpRec "E1x" "e1" "s9" (some 3) "S3" 7 true)).episodes "e1" =
       some { name := "E1", id := "e1",
              seen_by := ["P1"] ++
                (if (["P2"] : List String) = [] then [] else ["P2"]),
              profile := profP, series_id := "s1", season := 1,
              season_name := "Season 1", episode := 1 }) :=
  ⟨by decide,
    (C9_merge_frame profQ stOne
      (rawEpRec "E1x" "e1" "s9" (some 3) "S3" 7 true)).1
      { name := "E1x", id := "e1", seen_by := ["P2"], profile := profQ,
        series_id := "s9", season := 3, season_name := "S3", episode := 7 }
      { name := "E1", id := "e1", seen_by := ["P1"], profile := profP,
        series_id := "s1", season := 1, season_name := "Season 1",
        episode := 1 }
      (by decide) (by decide)⟩

/-! ### Duplicate-freedom machinery for claim C2 -/

theorem collect_mem_names {α : Type} (sb : α → List String)
    (ops : List (String × α × String)) (k : String) {x : String}
    (hx : x ∈ collectSeen sb ops k) : ∃ op ∈ ops, op.2.2 = x := by
  rw [collectSeen, List.mem_filterMap] at hx
  obtain ⟨op, hop, hval⟩ := hx
  by_cases hc : op.1 = k ∧ sb op.2.1 ≠ []
  · rw [if_pos hc] at hval
    cases hval
    exact ⟨op, hop, rfl⟩
  · rw [if_neg hc] at hval
    cases hval

theorem collect_eq_nil {α : Type} (sb : α → List String)
    (ops : List (String × α × String)) (k : String)
    (h : ∀ op ∈ ops, op.1 ≠ k) : collectSeen sb ops k = [] := by
  induction ops with
  | nil => rfl
  | cons op rest ih =>
    rw [collectSeen_cons, if_neg (fun hc => h op (List.mem_cons_self _ _) hc.1)]
    rw [List.nil_append]
    exact ih fun o ho => h o (List.mem_cons_of_mem _ ho)

theorem collect_length_le_one {α : Type} (sb : α → List String)
    (ops : List (String × α × String)) (k : String)
    (h : (ops.map fun op => op.1).count k ≤ 1) :
    (collectSeen sb ops k).length ≤ 1 := by
  induction ops with
  | nil => simp [collectSeen]
  | cons op rest ih =>
    rw [collectSeen_cons]
    by_cases hc : op.1 = k ∧ sb op.2.1 ≠ []
    · rw [if_pos hc]
      have hcount : (rest.map fun op => op.1).count k = 0 := by
        rw [List.map_cons, List.count_cons] at h
        simp only [hc.1, beq_self_eq_true, if_true] at h
        omega
      have hnil : collectSeen sb rest k = [] := by
        apply collect_eq_nil
        intro o ho hok
        have : k ∈ rest.map fun op => op.1 :=
          List.mem_map.mpr ⟨o, ho, hok⟩
        rw [List.count_eq_zero] at hcount
        exact hcount this
      rw [hnil]
      simp
    · rw [if_neg hc, List.nil_append]
      apply ih
      calc (rest.map fun op => op.1).count k
          ≤ ((op :: rest).map fun op => op.1).count k := by
            rw [List.map_cons]
            exact List.count_le_count_cons k _ _
        _ ≤ 1 := h

theorem eq_nil_or_singleton {l : List String} {nm : String}
    (hlen : l.length ≤ 1) (hall : ∀ x ∈ l, x = nm) :
    l = [] ∨ l = [nm] := by
  rcases l with _ | ⟨x, _ | ⟨y, t⟩⟩
  · exact Or.inl rfl
  · right
    rw [hall x (by simp)]
  · simp at hlen

theorem collectSeen_append {α : Type} (sb : α → List String)
    (o1 o2 : List (String × α × String)) (k : String) :
    collectSeen sb (o1 ++ o2) k =
      collectSeen sb o1 k ++ collectSeen sb o2 k := by
  simp [collectSeen, List.filterMap_append]

theorem occurrences_cons (pf : EmbyProfile × List RawItem)
    (rest : List (EmbyProfile × List RawItem)) :
    occurrences (pf :: rest) =
      (pf.2.map fun d => (pf.1, d)) ++ occurrences rest := by
  simp [occurrences]

theorem epOps_append (o1 o2 : List (EmbyProfile × RawItem)) :
    epOps (o1 ++ o2) = epOps o1 ++ epOps o2 := by
  simp [epOps, List.filterMap_append]

theorem seriesOps_append (o1 o2 : List (EmbyProfile × RawItem)) :
    seriesOps (o1 ++ o2) = seriesOps o1 ++ seriesOps o2 := by
  simp [seriesOps, List.filterMap_append]

theorem movieOps_append (o1 o2 : List (EmbyProfile × RawItem)) :
    movieOps (o1 ++ o2) = movieOps o1 ++ movieOps o2 := by
  simp [movieOps, List.filterMap_append]

theorem epOps_cons_ep {pr : EmbyProfile × RawItem}
    {os : List (EmbyProfile × RawItem)} {e : EmbyEpisode}
    (h : create_from_dict pr.2 pr.1 = ClassifiedItem.episode e) :
    epOps (pr :: os) = (e.id, e, pr.1.name) :: epOps os := by
  simp [epOps, List.filterMap_cons, h]

theorem epOps_cons_se {pr : EmbyProfile × RawItem}
    {os : List (EmbyProfile × RawItem)} {s : EmbySeries}
    (h : create_from_dict pr.2 pr.1 = ClassifiedItem.series s) :
    epOps (pr :: os) = epOps os := by
  simp [epOps, List.filterMap_cons, h]

theorem epOps_cons_mo {pr : EmbyProfile × RawItem}
    {os : List (EmbyProfile × RawItem)} {m : EmbyMovie}
    (h : create_from_dict pr.2 pr.1 = ClassifiedItem.movie m) :
    epOps (pr :: os) = epOps os := by
  simp [epOps, List.filterMap_cons, h]

theorem seriesOps_cons_ep {pr : EmbyProfile × RawItem}
    {os : List (EmbyProfile × RawItem)} {e : EmbyEpisode}
    (h : create_from_dict pr.2 pr.1 = ClassifiedItem.episode e) :
    seriesOps (pr :: os) = seriesOps os := by
  simp [seriesOps, List.filterMap_cons, h]

theorem seriesOps_cons_se {pr : EmbyProfile × RawItem}
    {os : List (EmbyProfile × RawItem)} {s : EmbySeries}
    (h : create_from_dict pr.2 pr.1 = ClassifiedItem.series s) :
    seriesOps (pr :: os) = (s.id, s, pr.1.name) :: seriesOps os := by
  simp [seriesOps, List.filterMap_cons, h]

theorem seriesOps_cons_mo {pr : EmbyProfile × RawItem}
    {os : List (EmbyProfile × RawItem)} {m : EmbyMovie}
    (h : create_from_dict pr.2 pr.1 = ClassifiedItem.movie m) :
    seriesOps (pr :: os) = seriesOps os := by
  simp [seriesOps, List.filterMap_cons, h]

theorem movieOps_cons_ep {pr : EmbyProfile × RawItem}
    {os : List (EmbyProfile × RawItem)} {e : EmbyEpisode}
    (h : create_from_dict pr.2 pr.1 = ClassifiedItem.episode e) :
    movieOps (pr :: os) = movieOps os := by
  simp [movieOps, List.filterMap_cons, h]

theorem movieOps_cons_se {pr : EmbyProfile × RawItem}
    {os : List (EmbyProfile × RawItem)} {s : EmbySeries}
    (h : create_from_dict pr.2 pr.1 = ClassifiedItem.series s) :
    movieOps (pr :: os) = movieOps os := by
  simp [movieOps, List.filterMap_cons, h]

theorem movieOps_cons_mo {pr : EmbyProfile × RawItem}
    {os : List (EmbyProfile × RawItem)} {m : EmbyMovie}
    (h : create_from_dict pr.2 pr.1 = ClassifiedItem.movie m) :
    movieOps (pr :: os) = (m.id, m, pr.1.name) :: movieOps os := by
  simp [movieOps, List.filterMap_cons, h]

theorem epOps_block_keys (p : EmbyProfile) (items : List RawItem) :
    (epOps (items.map fun d => (p, d))).map (fun op => op.1) =
      episodeIds items := by
  induction items with
  | nil => rfl
  | cons d rest ih =>
    rw [List.map_cons]
    cases h : create_from_dict d p with
    | episode e =>
      obtain ⟨hT, he⟩ := create_eq_episode.mp h
      have hid : e.id = d.Id := by rw [he]
      rw [epOps_cons_ep h, List.map_cons, ih, hid]
      simp [episodeIds, List.filter_cons, hT]
    | series s =>
      have hT : d.itemType = "Series" := (create_eq_series.mp h).1
      have hT' : ¬ d.itemType = "Episode" := by rw [hT]; decide
      rw [epOps_cons_se h, ih]
      simp [episodeIds, List.filter_cons, hT']
    | movie m =>
      have hT' : ¬ d.itemType = "Episode" := (create_eq_movie.mp h).1
      rw [epOps_cons_mo h, ih]
      simp [episodeIds, List.filter_cons, hT']

theorem seriesOps_block_keys (p : EmbyProfile) (items : List RawItem) :
    (seriesOps (items.map fun d => (p, d))).map (fun op => op.1) =
      seriesIds items := by
  induction items with
  | nil => rfl
  | cons d rest ih =>
    rw [List.map_cons]
    cases h : create_from_dict d p with
    | episode e =>
      have hT : d.itemType = "Episode" := (create_eq_episode.mp h).1
      have hT' : ¬ d.itemType = "Series" := by rw [hT]; decide
      rw [seriesOps_cons_ep h, ih]
      simp [seriesIds, List.filter_cons, hT']
    | series s =>
      obtain ⟨hT, hs⟩ := create_eq_series.mp h
      have hid : s.id = d.Id := by rw [hs]
      rw [seriesOps_cons_se h, List.map_cons, ih, hid]
      simp [seriesIds, List.filter_cons, hT]
    | movie m =>
      have hT' : ¬ d.itemType = "Series" := (create_eq_movie.mp h).2.1
      rw [seriesOps_cons_mo h, ih]
      simp [seriesIds, List.filter_cons, hT']

theorem movieOps_block_keys (p : EmbyProfile) (items : List RawItem) :
    (movieOps (items.map fun d => (p, d))).map (fun op => op.1) =
      movieIds items := by
  induction items with
  | nil => rfl
  | cons d rest ih =>
    rw [List.map_cons]
    cases h : create_from_dict d p with
    | episode e =>
      have hT : d.itemType = "Episode" := (create_eq_episode.mp h).1
      rw [movieOps_cons_ep h, ih]
      simp [movieIds, List.filter_cons, hT]
    | series s =>
      have hT : d.itemType = "Series" := (create_eq_series.mp h).1
      rw [movieOps_cons_se h, ih]
      simp [movieIds, List.filter_cons, hT]
    | movie m =>
      obtain ⟨hT1, hT2, hm⟩ := create_eq_movie.mp h
      rw [movieOps_cons_mo h, List.map_cons, ih, hm]
      simp [movieIds, List.filter_cons, hT1, hT2]

theorem epOps_block_names (p : EmbyProfile) (items : List RawItem) :
    ∀ op ∈ epOps (items.map fun d => (p, d)), op.2.2 = p.name := by
  intro op hop
  rw [epOps, List.mem_filterMap] at hop
  obtain ⟨pr, hpr, hmatch⟩ := hop
  obtain ⟨d, -, rfl⟩ := List.mem_map.mp hpr
  cases h : create_from_dict d p with
  | episode e => rw [h] at hmatch; cases hmatch; rfl
  | series s => rw [h] at hmatch; cases hmatch
  | movie m => rw [h] at hmatch; cases hmatch

theorem seriesOps_block_names (p : EmbyProfile) (items : List RawItem) :
    ∀ op ∈ seriesOps (items.map fun d => (p, d)), op.2.2 = p.name := by
  intro op hop
  rw [seriesOps, List.mem_filterMap] at hop
  obtain ⟨pr, hpr, hmatch⟩ := hop
  obtain ⟨d, -, rfl⟩ := List.mem_map.mp hpr
  cases h : create_from_dict d p with
  | episode e => rw [h] at hmatch; cases hmatch
  | series s => rw [h] at hmatch; cases hmatch; rfl
  | movie m => rw [h] at hmatch; cases hmatch

theorem movieOps_block_names (p : EmbyProfile) (items : List RawItem) :
    ∀ op ∈ movieOps (items.map fun d => (p, d)), op.2.2 = p.name := by
  intro op hop
  rw [movieOps, List.mem_filterMap] at hop
  obtain ⟨pr, hpr, hmatch⟩ := hop
  obtain ⟨d, -, rfl⟩ := List.mem_map.mp hpr
  cases h : create_from_dict d p with
  | episode e => rw [h] at hmatch; cases hmatch
  | series s => rw [h] at hmatch; cases hmatch
  | movie m => rw [h] at hmatch; cases hmatch; rfl

theorem ep_block_collect (p : EmbyProfile) (items : List RawItem)
    (k : String) (h : (episodeIds items).Nodup) :
    collectSeen EmbyEpisode.seen_by (epOps (items.map fun d => (p, d))) k
        = [] ∨
      collectSeen EmbyEpisode.seen_by (epOps (items.map fun d => (p, d))) k
        = [p.name] := by
  apply eq_nil_or_singleton
  · apply collect_length_le_one
    rw [epOps_block_keys]
    exact List.nodup_iff_count_le_one.mp h k
  · intro x hx
    obtain ⟨op, hop, heq⟩ := collect_mem_names _ _ _ hx
    rw [← heq]
    exact epOps_block_names p items op hop

theorem series_block_collect (p : EmbyProfile) (items : List RawItem)
    (k : String) (h : (seriesIds items).Nodup) :
    collectSeen EmbySeries.seen_by (seriesOps (items.map fun d => (p, d))) k
        = [] ∨
      collectSeen EmbySeries.seen_by
          (seriesOps (items.map fun d => (p, d))) k = [p.name] := by
  apply eq_nil_or_singleton
  · apply collect_length_le_one
    rw [seriesOps_block_keys]
    exact List.nodup_iff_count_le_one.mp h k
  · intro x hx
    obtain ⟨op, hop, heq⟩ := collect_mem_names _ _ _ hx
    rw [← heq]
    exact seriesOps_block_names p items op hop

theorem movie_block_collect (p : EmbyProfile) (items : List RawItem)
    (k : String) (h : (movieIds items).Nodup) :
    collectSeen EmbyMovie.seen_by (movieOps (items.map fun d => (p, d))) k
        = [] ∨
      collectSeen EmbyMovie.seen_by
          (movieOps (items.map fun d => (p, d))) k = [p.name] := by
  apply eq_nil_or_singleton
  · apply collect_length_le_one
    rw [movieOps_block_keys]
    exact List.nodup_iff_count_le_one.mp h k
  · intro x hx
    obtain ⟨op, hop, heq⟩ := collect_mem_names _ _ _ hx
    rw [← heq]
    exact movieOps_block_names p items op hop

theorem ep_collect_names_sub (fetches : List (EmbyProfile × List RawItem))
    (k : String) {x : String}
    (hx : x ∈ collectSeen EmbyEpisode.seen_by
      (epOps (occurrences fetches)) k) :
    x ∈ fetches.map fun pf => pf.1.name := by
  obtain ⟨pr, hpr, -, -, -, hnm⟩ := (mem_collect_epOps _ k x).mp hx
  obtain ⟨pf, hpf, d, -, rfl⟩ := mem_occurrences.mp hpr
  exact List.mem_map.mpr ⟨pf, hpf, hnm⟩

theorem series_collect_names_sub
    (fetches : List (EmbyProfile × List RawItem)) (k : String) {x : String}
    (hx : x ∈ collectSeen EmbySeries.seen_by
      (seriesOps (occurrences fetches)) k) :
    x ∈ fetches.map fun pf => pf.1.name := by
  obtain ⟨pr, hpr, -, -, -, hnm⟩ := (mem_collect_seriesOps _ k x).mp hx
  obtain ⟨pf, hpf, d, -, rfl⟩ := mem_occurrences.mp hpr
  exact List.mem_map.mpr ⟨pf, hpf, hnm⟩

theorem movie_collect_names_sub
    (fetches : List (EmbyProfile × List RawItem)) (k : String) {x : String}
    (hx : x ∈ collectSeen EmbyMovie.seen_by
      (movieOps (occurrences fetches)) k) :
    x ∈ fetches.map fun pf => pf.1.name := by
  obtain ⟨pr, hpr, -, -, -, -, hnm⟩ := (mem_collect_movieOps _ k x).mp hx
  obtain ⟨pf, hpf, d, -, rfl⟩ := mem_occurrences.mp hpr
  exact List.mem_map.mpr ⟨pf, hpf, hnm⟩

theorem ep_collect_nodup (fetches : List (EmbyProfile × List RawItem))
    (k : String) (hnames : (fetches.map fun pf => pf.1.name).Nodup)
    (hids : ∀ pf ∈ fetches, (episodeIds pf.2).Nodup) :
    (collectSeen EmbyEpisode.seen_by (epOps (occurrences fetches)) k).Nodup := by
  induction fetches with
  | nil => simp [occurrences, epOps, collectSeen]
  | cons pf rest ih =>
    rw [occurrences_cons, epOps_append, collectSeen_append]
    rw [List.map_cons, List.nodup_cons] at hnames
    have htail := ih hnames.2
      (fun pf' h' => hids pf' (List.mem_cons_of_mem _ h'))
    rcases ep_block_collect pf.1 pf.2 k
        (hids pf (List.mem_cons_self _ _)) with hb | hb
    · rw [hb, List.nil_append]
      exact htail
    · rw [hb, List.singleton_append, List.nodup_cons]
      exact ⟨fun hmem => hnames.1 (ep_collect_names_sub rest k hmem), htail⟩

theorem series_collect_nodup (fetches : List (EmbyProfile × List RawItem))
    (k : String) (hnames : (fetches.map fun pf => pf.1.name).Nodup)
    (hids : ∀ pf ∈ fetches, (seriesIds pf.2).Nodup) :
    (collectSeen EmbySeries.seen_by
      (seriesOps (occurrences fetches)) k).Nodup := by
  induction fetches with
  | nil => simp [occurrences, seriesOps, collectSeen]
  | cons pf rest ih =>
    rw [occurrences_cons, seriesOps_append, collectSeen_append]
    rw [List.map_cons, List.nodup_cons] at hnames
    have htail := ih hnames.2
      (fun pf' h' => hids pf' (List.mem_cons_of_mem _ h'))
    rcases series_block_collect pf.1 pf.2 k
        (hids pf (List.mem_cons_self _ _)) with hb | hb
    · rw [hb, List.nil_append]
      exact htail
    · rw [hb, List.singleton_append, List.nodup_cons]
      exact ⟨fun hmem => hnames.1 (series_collect_names_sub rest k hmem),
        htail⟩

theorem movie_collect_nodup (fetches : List (EmbyProfile × List RawItem))
    (k : String) (hnames : (fetches.map fun pf => pf.1.name).Nodup)
    (hids : ∀ pf ∈ fetches, (movieIds pf.2).Nodup) :
    (collectSeen EmbyMovie.seen_by
      (movieOps (occurrences fetches)) k).Nodup := by
  induction fetches with
  | nil => simp [occurrences, movieOps, collectSeen]
  | cons pf rest ih =>
    rw [occurrences_cons, movieOps_append, collectSeen_append]
    rw [List.map_cons, List.nodup_cons] at hnames
    have htail := ih hnames.2
      (fun pf' h' => hids pf' (List.mem_cons_of_mem _ h'))
    rcases movie_block_collect pf.1 pf.2 k
        (hids pf (List.mem_cons_self _ _)) with hb | hb
    · rw [hb, List.nil_append]
      exact htail
    · rw [hb, List.singleton_append, List.nodup_cons]
      exact ⟨fun hmem => hnames.1 (movie_collect_names_sub rest k hmem),
        htail⟩

/-! ### Claim C2 -/

/-- **C2 is false as stated**: when one profile's fetch result contains the
same movie id twice with a true played flag, the aggregation appends the
profile's name twice, so the canonical entry's `seen_by` holds a duplicate
(`["P1", "P1"]`). -/
theorem C2_counterexample :
    ∃ m, lookupA (aggregate fetchesDup).movies "m1" = some m ∧
      ¬ m.seen_by.Nodup :=
  ⟨{ name := "Foo", id := "m1", seen_by := ["P1", "P1"], profile := profP },
    by decide, by decide⟩

/-- **C2 (amended).**  When every profile appears once with a distinct name
and each profile's fetch result lists each id at most once per variant
class, no aggregated entry's `seen_by` contains a duplicate profile name.
(Re-running the aggregation over the same fetch results trivially yields the
identical mappings, `aggregate` being a pure function of them.) -/
theorem C2_amended_no_duplicates
    (fetches : List (EmbyProfile × List RawItem))
    (hnames : (fetches.map fun pf => pf.1.name).Nodup)
    (hep : ∀ pf ∈ fetches, (episodeIds pf.2).Nodup)
    (hse : ∀ pf ∈ fetches, (seriesIds pf.2).Nodup)
    (hmo : ∀ pf ∈ fetches, (movieIds pf.2).Nodup) (k : String) :
    (∀ e, lookupA (aggregate fetches).episodes k = some e →
      e.seen_by.Nodup) ∧
    (∀ s, lookupA (aggregate fetches).series k = some s →
      s.seen_by.Nodup) ∧
    (∀ m, lookupA (aggregate fetches).movies k = some m →
      m.seen_by.Nodup) := by
  refine ⟨?_, ?_, ?_⟩
  · intro e he
    rw [episodes_seen_eq_collect he]
    exact ep_collect_nodup fetches k hnames hep
  · intro s hs
    rw [series_seen_eq_collect hs]
    exact series_collect_nodup fetches k hnames hse
  · intro m hm
    rw [movies_seen_eq_collect hm]
    exact movie_collect_nodup fetches k hnames hmo

/-- Witness for the amended C2 at the two-profile input `fetchesA`. -/
theorem C2_witness :
    (fetchesA.map fun pf => pf.1.name).Nodup ∧
    (∀ m, lookupA (aggregate fetchesA).movies "m1" = some m →
      m.seen_by.Nodup) :=
  ⟨by decide,
    (C2_amended_no_duplicates fetchesA (by decide) (by decide) (by decide)
      (by decide) "m1").2.2⟩

/-! ### Insertion-sort lemmas -/

theorem insSorted_perm {α : Type} (le : α → α → Bool) (x : α) (l : List α) :
    (insSorted le x l).Perm (x :: l) := by
  induction l with
  | nil => exact List.Perm.refl _
  | cons y ys ih =>
    rw [insSorted]
    by_cases h : le x y = true
    · rw [if_pos h]
    · rw [if_neg h]
      exact (ih.cons y).trans (List.Perm.swap x y ys)

theorem insSort_perm {α : Type} (le : α → α → Bool) (l : List α) :
    (insSort le l).Perm l := by
  induction l with
  | nil => exact List.Perm.refl _
  | cons x xs ih =>
    rw [insSort]
    exact (insSorted_perm le x (insSort le xs)).trans (ih.cons x)

theorem insSorted_pairwise {α : Type} (le : α → α → Bool)
    (htrans : ∀ a b c, le a b = true → le b c = true → le a c = true)
    (htotal : ∀ a b, (le a b || le b a) = true) (x : α) {l : List α}
    (h : l.Pairwise fun a b => le a b = true) :
    (insSorted le x l).Pairwise fun a b => le a b = true := by
  induction l with
  | nil => simp [insSorted]
  | cons y ys ih =>
    rw [insSorted]
    obtain ⟨hy, hys⟩ := List.pairwise_cons.mp h
    by_cases hxy : le x y = true
    · rw [if_pos hxy]
      refine List.pairwise_cons.mpr ⟨?_, h⟩
      intro z hz
      rcases List.mem_cons.mp hz with rfl | hz'
      · exact hxy
      · exact htrans x y z hxy (hy z hz')
    · rw [if_neg hxy]
      have hyx : le y x = true := by
        have := htotal x y
        rw [Bool.or_eq_true] at this
        rcases this with h1 | h1
        · exact absurd h1 hxy
        · exact h1
      refine List.pairwise_cons.mpr ⟨?_, ih hys⟩
      intro z hz
      have hz' : z ∈ x :: ys := (insSorted_perm le x ys).mem_iff.mp hz
      rcases List.mem_cons.mp hz' with rfl | hz''
      · exact hyx
      · exact hy z hz''

theorem insSort_pairwise {α : Type} (le : α → α → Bool)
    (htrans : ∀ a b c, le a b = true → le b c = true → le a c = true)
    (htotal : ∀ a b, (le a b || le b a) = true) (l : List α) :
    (insSort le l).Pairwise fun a b => le a b = true := by
  induction l with
  | nil => simp [insSort]
  | cons x xs ih =>
    rw [insSort]
    exact insSorted_pairwise le htrans htotal x ih

theorem keyLE_trans (a b c : SortKey) (hab : keyLE a b = true)
    (hbc : keyLE b c = true) : keyLE a c = true := by
  rw [keyLE, decide_eq_true_eq] at *
  exact le_trans hab hbc

theorem keyLE_total (a b : SortKey) : (keyLE a b || keyLE b a) = true := by
  rw [Bool.or_eq_true, keyLE, keyLE, decide_eq_true_eq, decide_eq_true_eq]
  exact le_total a b

theorem keyedLE_trans (a b c : SortKey × String × EmbyEpisode)
    (hab : keyedLE a b = true) (hbc : keyedLE b c = true) :
    keyedLE a c = true :=
  keyLE_trans a.1 b.1 c.1 hab hbc

theorem keyedLE_total (a b : SortKey × String × EmbyEpisode) :
    (keyedLE a b || keyedLE b a) = true :=
  keyLE_total a.1 b.1

theorem movLE_trans (a b c : String × EmbyMovie) (hab : movLE a b = true)
    (hbc : movLE b c = true) : movLE a c = true := by
  rw [movLE, decide_eq_true_eq] at *
  exact le_trans hab hbc

theorem movLE_total (a b : String × EmbyMovie) :
    (movLE a b || movLE b a) = true := by
  rw [Bool.or_eq_true, movLE, movLE, decide_eq_true_eq, decide_eq_true_eq]
  exact le_total a.2.name.data b.2.name.data

/-! ### Keyed-episode lemmas -/

theorem keyEpisodes_error_of_orphan
    {sm : List (String × EmbySeries)} {eps : List (String × EmbyEpisode)}
    (h : ∃ kv ∈ eps, lookupA sm kv.2.series_id = none) :
    keyEpisodes sm eps = Except.error ReportError.orphanEpisode := by
  induction eps with
  | nil =>
    obtain ⟨kv, h1, -⟩ := h
    cases h1
  | cons kv rest ih =>
    obtain ⟨kv', hmem, hlook⟩ := h
    rcases List.mem_cons.mp hmem with rfl | hmem'
    · simp [keyEpisodes, hlook]
    · cases hl : lookupA sm kv.2.series_id with
      | none => simp [keyEpisodes, hl]
      | some sv => simp [keyEpisodes, hl, ih ⟨kv', hmem', hlook⟩]

theorem keyEpisodes_ok_length
    {sm : List (String × EmbySeries)} {eps : List (String × EmbyEpisode)}
    {l : List (SortKey × String × EmbyEpisode)}
    (h : keyEpisodes sm eps = Except.ok l) : l.length = eps.length := by
  induction eps generalizing l with
  | nil =>
    rw [keyEpisodes] at h
    cases h
    rfl
  | cons kv rest ih =>
    rw [keyEpisodes] at h
    cases hl : lookupA sm kv.2.series_id with
    | none => rw [hl] at h; cases h
    | some sv =>
      rw [hl] at h
      cases hr : keyEpisodes sm rest with
      | error er => rw [hr] at h; cases h
      | ok tail =>
        rw [hr] at h
        cases h
        simp [ih hr]

theorem keyEpisodes_ok_map
    {sm : List (String × EmbySeries)} {eps : List (String × EmbyEpisode)}
    {l : List (SortKey × String × EmbyEpisode)}
    (h : keyEpisodes sm eps = Except.ok l) :
    l.map (fun x => x.2) = eps := by
  induction eps generalizing l with
  | nil =>
    rw [keyEpisodes] at h
    cases h
    rfl
  | cons kv rest ih =>
    rw [keyEpisodes] at h
    cases hl : lookupA sm kv.2.series_id with
    | none => rw [hl] at h; cases h
    | some sv =>
      rw [hl] at h
      cases hr : keyEpisodes sm rest with
      | error er => rw [hr] at h; cases h
      | ok tail =>
        rw [hr] at h
        cases h
        simp [ih hr]

theorem keyEpisodes_ok_mem
    {sm : List (String × EmbySeries)} {eps : List (String × EmbyEpisode)}
    {l : List (SortKey × String × EmbyEpisode)}
    (h : keyEpisodes sm eps = Except.ok l) :
    ∀ x ∈ l, ∃ sv, lookupA sm x.2.2.series_id = some sv ∧
      x.1 = mkKey sv.name x.2.2 ∧ x.2 ∈ eps := by
  induction eps generalizing l with
  | nil =>
    rw [keyEpisodes] at h
    cases h
    intro x hx
    cases hx
  | cons kv rest ih =>
    rw [keyEpisodes] at h
    cases hl : lookupA sm kv.2.series_id with
    | none => rw [hl] at h; cases h
    | some sv =>
      rw [hl] at h
      cases hr : keyEpisodes sm rest with
      | error er => rw [hr] at h; cases h
      | ok tail =>
        rw [hr] at h
        cases h
        intro x hx
        rcases List.mem_cons.mp hx with rfl | hx'
        · exact ⟨sv, hl, rfl, List.mem_cons_self _ _⟩
        · obtain ⟨sv', h1, h2, h3⟩ := ih hr x hx'
          exact ⟨sv', h1, h2, List.mem_cons_of_mem _ h3⟩

/-! ### Grouping-fold lemmas -/

theorem expectedEpRows_nil (cfg : Config) (sm : List (String × EmbySeries))
    (s : String) : expectedEpRows cfg sm s [] = [] := rfl

theorem expectedEpRows_cons (cfg : Config) (sm : List (String × EmbySeries))
    (s : String) (kv : SortKey × String × EmbyEpisode)
    (rest : List (SortKey × String × EmbyEpisode)) :
    expectedEpRows cfg sm s (kv :: rest) =
      stepRows cfg sm s kv ++
        expectedEpRows cfg sm (resolvedName sm kv) rest := by
  simp [expectedEpRows, List.flatMap_cons]

theorem epRowsFold_ok_eq {cfg : Config} {sm : List (String × EmbySeries)}
    {s : String} {l : List (SortKey × String × EmbyEpisode)} {rows : List Row}
    (h : epRowsFold cfg sm s l = Except.ok rows) :
    rows = expectedEpRows cfg sm s l := by
  induction l generalizing s rows with
  | nil =>
    rw [epRowsFold] at h
    cases h
    rfl
  | cons kv rest ih =>
    cases hl : lookupA sm kv.2.2.series_id with
    | none => simp [epRowsFold, hl] at h
    | some sv =>
      cases hh : cfg.hide_episodes with
      | none => simp [epRowsFold, hl, hh] at h
      | some hs =>
        cases hr : epRowsFold cfg sm sv.name rest with
        | error er => simp [epRowsFold, hl, hh, hr] at h
        | ok tail =>
          simp only [epRowsFold, hl, hh, hr, Except.ok.injEq] at h
          rw [expectedEpRows_cons]
          have hrn : resolvedName sm kv = sv.name := by
            simp [resolvedName, hl]
          rw [hrn, ← ih hr, ← h]
          simp [stepRows, hl, hh, List.append_assoc]

theorem stepRows_mem {cfg : Config} {sm : List (String × EmbySeries)}
    {prev : String} {kv : SortKey × String × EmbyEpisode} {r : Row}
    (hr : r ∈ stepRows cfg sm prev kv) :
    ∃ sv hs, lookupA sm kv.2.2.series_id = some sv ∧
      cfg.hide_episodes = some hs ∧
      ((r = { kind := "Series", title := sv.name, seen_by := sv.seen_by } ∧
          prev ≠ sv.name) ∨
        (r = { kind := "Episode", title := epTitle sv.name kv.2.2,
               seen_by := kv.2.2.seen_by } ∧ sv.name ∉ hs)) := by
  rw [stepRows] at hr
  cases hl : lookupA sm kv.2.2.series_id with
  | none => rw [hl] at hr; cases hr
  | some sv =>
    rw [hl] at hr
    cases hh : cfg.hide_episodes with
    | none => rw [hh] at hr; cases hr
    | some hs =>
      rw [hh] at hr
      refine ⟨sv, hs, rfl, rfl, ?_⟩
      rcases List.mem_append.mp hr with h1 | h1
      · by_cases hp : prev ≠ sv.name
        · rw [if_pos hp] at h1
          rcases List.mem_cons.mp h1 with rfl | h2
          · exact Or.inl ⟨rfl, hp⟩
          · cases h2
        · rw [if_neg hp] at h1
          cases h1
      · by_cases hhide : sv.name ∉ hs
        · rw [if_pos hhide] at h1
          rcases List.mem_cons.mp h1 with rfl | h2
          · exact Or.inr ⟨rfl, hhide⟩
          · cases h2
        · rw [if_neg hhide] at h1
          cases h1

theorem mem_expectedEpRows {cfg : Config} {sm : List (String × EmbySeries)}
    {s : String} {l : List (SortKey × String × EmbyEpisode)} {r : Row}
    (hr : r ∈ expectedEpRows cfg sm s l) :
    ∃ kv ∈ l, ∃ prev, r ∈ stepRows cfg sm prev kv := by
  rw [expectedEpRows, List.mem_flatMap] at hr
  obtain ⟨q, hq, hrq⟩ := hr
  have hq1 : q.1 ∈ l := (List.of_mem_zip hq).1
  exact ⟨q.1, hq1, q.2, hrq⟩

/-! ### Structure of a successful run -/

theorem gml_ok_parts {cfg : Config} {fetches : List (EmbyProfile × List RawItem)}
    {rows : List Row} (h : get_media_list cfg fetches = Except.ok rows) :
    ∃ l eprows,
      keyEpisodes (aggregate fetches).series (aggregate fetches).episodes =
        Except.ok l ∧
      epRowsFold cfg (aggregate fetches).series "" (insSort keyedLE l) =
        Except.ok eprows ∧
      rows = eprows ++ movieRows (aggregate fetches) := by
  cases hke : keyEpisodes (aggregate fetches).series
      (aggregate fetches).episodes with
  | error er =>
    have hsk : sortedKeyedEpisodes (aggregate fetches) = Except.error er := by
      simp [sortedKeyedEpisodes, hke]
    simp [get_media_list, hsk] at h
  | ok l =>
    have hsk : sortedKeyedEpisodes (aggregate fetches) =
        Except.ok (insSort keyedLE l) := by
      simp [sortedKeyedEpisodes, hke]
    cases hf : epRowsFold cfg (aggregate fetches).series ""
        (insSort keyedLE l) with
    | error er => simp [get_media_list, hsk, hf] at h
    | ok eprows =>
      refine ⟨l, eprows, rfl, hf, ?_⟩
      simp only [get_media_list, hsk, hf, Except.ok.injEq] at h
      exact h.symm

theorem expected_contains_series_row {cfg : Config}
    {sm : List (String × EmbySeries)} {hs : List String}
    (hcfg : cfg.hide_episodes = some hs) {sname : String} (hne : sname ≠ "") :
    ∀ (l : List (SortKey × String × EmbyEpisode)) (s : String), s ≠ sname →
      (∃ x ∈ l, resolvedName sm x = sname) →
      ∃ r ∈ expectedEpRows cfg sm s l, r.kind = "Series" ∧ r.title = sname ∧
        ∃ sv, sv.name = sname ∧ r.seen_by = sv.seen_by ∧
          ∃ sid, lookupA sm sid = some sv := by
  intro l
  induction l with
  | nil =>
    intro s hs' hex
    obtain ⟨x, hx, -⟩ := hex
    cases hx
  | cons x rest ih =>
    intro s hs' hex
    by_cases hx : resolvedName sm x = sname
    · cases hl : lookupA sm x.2.2.series_id with
      | none =>
        exfalso
        simp [resolvedName, hl] at hx
        exact hne hx.symm
      | some sv =>
        have hsvn : sv.name = sname := by simpa [resolvedName, hl] using hx
        have hsne : s ≠ sv.name := by rw [hsvn]; exact hs'
        have hstep : stepRows cfg sm s x =
            { kind := "Series", title := sv.name, seen_by := sv.seen_by } ::
              (if sv.name ∉ hs then
                [{ kind := "Episode", title := epTitle sv.name x.2.2,
                   seen_by := x.2.2.seen_by }]
               else []) := by
          simp [stepRows, hl, hcfg, hsne]
        refine ⟨{ kind := "Series", title := sv.name, seen_by := sv.seen_by },
          ?_, rfl, hsvn, sv, hsvn, rfl, x.2.2.series_id, hl⟩
        rw [expectedEpRows_cons]
        apply List.mem_append_left
        rw [hstep]
        exact List.mem_cons_self _ _
    · have hex' : ∃ x' ∈ rest, resolvedName sm x' = sname := by
        obtain ⟨x', hx', hres⟩ := hex
        rcases List.mem_cons.mp hx' with rfl | hmem
        · exact absurd hres hx
        · exact ⟨x', hmem, hres⟩
      obtain ⟨r, hrmem, hprops⟩ := ih (resolvedName sm x) hx hex'
      refine ⟨r, ?_, hprops⟩
      rw [expectedEpRows_cons]
      exact List.mem_append_right _ hrmem

/-! ### Claim C3 -/

/-- **C3.**  If any aggregated episode's `series_id` is absent from the
aggregated series mapping, `get_media_list` fails with the orphan-episode
`KeyError` raised by the sort-key lookup, so `display_output` is never
reached and no table is printed. -/
theorem C3_orphan_episode_fatal (cfg : Config)
    (fetches : List (EmbyProfile × List RawItem))
    (h : ∃ kv ∈ (aggregate fetches).episodes,
      lookupA (aggregate fetches).series kv.2.series_id = none) :
    get_media_list cfg fetches = Except.error ReportError.orphanEpisode := by
  have hk := keyEpisodes_error_of_orphan h
  simp [get_media_list, sortedKeyedEpisodes, hk]

/-- Witness for C3: a single fetched episode whose `SeriesId` was never
fetched as a series. -/
theorem C3_witness :
    (∃ kv ∈ (aggregate fetchesOrphan).episodes,
      lookupA (aggregate fetchesOrphan).series kv.2.series_id = none) ∧
    get_media_list cfgNoHide fetchesOrphan =
      Except.error ReportError.orphanEpisode :=
  ⟨by decide, C3_orphan_episode_fatal cfgNoHide fetchesOrphan (by decide)⟩

/-! ### Claim C10 -/

/-- **C10.**  When the configuration has no `hide_episodes` key and at
least one episode was aggregated, `get_media_list` always fails with a
lookup `KeyError` (either the `hide_episodes` lookup of line 200 or, for
an orphan, the series lookup), so no table is ever printed: the key is
effectively mandatory as soon as any episode is aggregated. -/
theorem C10_missing_hide_episodes_fatal (cfg : Config)
    (fetches : List (EmbyProfile × List RawItem))
    (hcfg : cfg.hide_episodes = none)
    (hne : (aggregate fetches).episodes ≠ []) :
    ∃ er, get_media_list cfg fetches = Except.error er := by
  cases hke : keyEpisodes (aggregate fetches).series
      (aggregate fetches).episodes with
  | error er =>
    refine ⟨er, ?_⟩
    have hsk : sortedKeyedEpisodes (aggregate fetches) = Except.error er := by
      simp [sortedKeyedEpisodes, hke]
    simp [get_media_list, hsk]
  | ok l =>
    have hsk : sortedKeyedEpisodes (aggregate fetches) =
        Except.ok (insSort keyedLE l) := by
      simp [sortedKeyedEpisodes, hke]
    have hlen := keyEpisodes_ok_length hke
    have hlne : l ≠ [] := by
      intro h0
      rw [h0] at hlen
      exact hne (List.eq_nil_of_length_eq_zero hlen.symm)
    have hsne : insSort keyedLE l ≠ [] := by
      intro h0
      have hplen := (insSort_perm keyedLE l).length_eq
      rw [h0] at hplen
      exact hlne (List.eq_nil_of_length_eq_zero hplen.symm)
    obtain ⟨x, rest, hx⟩ := List.exists_cons_of_ne_nil hsne
    cases hl : lookupA (aggregate fetches).series x.2.2.series_id with
    | none =>
      exact ⟨ReportError.orphanEpisode,
        by simp [get_media_list, hsk, hx, epRowsFold, hl]⟩
    | some sv =>
      exact ⟨ReportError.missingHideEpisodes,
        by simp [get_media_list, hsk, hx, epRowsFold, hl, hcfg]⟩

/-- Witness for C10: host/key-only configuration (no `hide_episodes`) with
an aggregated episode. -/
theorem C10_witness :
    (aggregate fetchesA).episodes ≠ [] ∧
    ∃ er, get_media_list cfgMissing fetchesA = Except.error er :=
  ⟨by decide,
    C10_missing_hide_episodes_fatal cfgMissing fetchesA rfl (by decide)⟩

/-! ### Claim C4 -/

/-- **C4.**  Row order of a successful report: the episode section is the
grouping fold over a keyed episode list sorted by the tuple
`(resolved series name, season, season_name, episode)` (each key really is
that episode's resolved key, and the sorted list enumerates exactly the
aggregated episodes); all its rows are `Series`/`Episode` rows; every
`Movie` row comes after them, and the movie section enumerates exactly the
aggregated movies sorted by name. -/
theorem C4_report_row_order (cfg : Config)
    (fetches : List (EmbyProfile × List RawItem)) (rows : List Row)
    (h : get_media_list cfg fetches = Except.ok rows) :
    ∃ keyed eprows,
      sortedKeyedEpisodes (aggregate fetches) = Except.ok keyed ∧
      keyed.Pairwise (fun a b => keyLE a.1 b.1 = true) ∧
      (∀ x ∈ keyed, ∃ sv,
        lookupA (aggregate fetches).series x.2.2.series_id = some sv ∧
        x.1 = mkKey sv.name x.2.2 ∧ x.2 ∈ (aggregate fetches).episodes) ∧
      (keyed.map fun x => x.2).Perm (aggregate fetches).episodes ∧
      epRowsFold cfg (aggregate fetches).series "" keyed =
        Except.ok eprows ∧
      (∀ r ∈ eprows, r.kind = "Series" ∨ r.kind = "Episode") ∧
      rows = eprows ++ movieRows (aggregate fetches) ∧
      (∀ r ∈ movieRows (aggregate fetches), r.kind = "Movie") ∧
      (sortedMovies (aggregate fetches)).Pairwise
        (fun a b => movLE a b = true) ∧
      (sortedMovies (aggregate fetches)).Perm (aggregate fetches).movies := by
  obtain ⟨l, eprows, hke, hf, hrows⟩ := gml_ok_parts h
  have hsk : sortedKeyedEpisodes (aggregate fetches) =
      Except.ok (insSort keyedLE l) := by
    simp [sortedKeyedEpisodes, hke]
  refine ⟨insSort keyedLE l, eprows, hsk, ?_, ?_, ?_, hf, ?_, hrows, ?_, ?_, ?_⟩
  · exact insSort_pairwise keyedLE keyedLE_trans keyedLE_total l
  · intro x hx
    exact keyEpisodes_ok_mem hke x ((insSort_perm keyedLE l).mem_iff.mp hx)
  · have hperm := (insSort_perm keyedLE l).map fun x => x.2
    rw [keyEpisodes_ok_map hke] at hperm
    exact hperm
  · intro r hr
    rw [epRowsFold_ok_eq hf] at hr
    obtain ⟨kv, -, prev, hstep⟩ := mem_expectedEpRows hr
    obtain ⟨sv, hs2, -, -, hcase⟩ := stepRows_mem hstep
    rcases hcase with ⟨rfl, -⟩ | ⟨rfl, -⟩
    · exact Or.inl rfl
    · exact Or.inr rfl
  · intro r hr
    obtain ⟨mkv, -, rfl⟩ := List.mem_map.mp hr
    rfl
  · exact insSort_pairwise movLE movLE_trans movLE_total _
  · exact insSort_perm movLE _

/-- Witness for C4 at `fetchesA`: the series row, its two episodes in
episode order, then the movies sorted by name. -/
theorem C4_witness :
    get_media_list cfgNoHide fetchesA = Except.ok
      [{ kind := "Series", title := "Alpha", seen_by := ["P1"] },
       { kind := "Episode", title := "Alpha [01x01] E1", seen_by := [] },
       { kind := "Episode", title := "Alpha [01x02] E2", seen_by := ["P1"] },
       { kind := "Movie", title := "Bar", seen_by := ["P2"] },
       { kind := "Movie", title := "Foo", seen_by := ["P1"] }] ∧
    (∃ keyed eprows,
      sortedKeyedEpisodes (aggregate fetchesA) = Except.ok keyed ∧
      epRowsFold cfgNoHide (aggregate fetchesA).series "" keyed =
        Except.ok eprows ∧
      [{ kind := "Series", title := "Alpha", seen_by := ["P1"] },
       { kind := "Episode", title := "Alpha [01x01] E1", seen_by := [] },
       { kind := "Episode", title := "Alpha [01x02] E2", seen_by := ["P1"] },
       { kind := "Movie", title := "Bar", seen_by := ["P2"] },
       { kind := "Movie", title := "Foo", seen_by := ["P1"] }] =
        eprows ++ movieRows (aggregate fetchesA)) := by
  refine ⟨by decide, ?_⟩
  obtain ⟨keyed, eprows, h1, -, -, -, h2, -, h3, -⟩ :=
    C4_report_row_order cfgNoHide fetchesA
      [{ kind := "Series", title := "Alpha", seen_by := ["P1"] },
       { kind := "Episode", title := "Alpha [01x01] E1", seen_by := [] },
       { kind := "Episode", title := "Alpha [01x02] E2", seen_by := ["P1"] },
       { kind := "Movie", title := "Bar", seen_by := ["P2"] },
       { kind := "Movie", title := "Foo", seen_by := ["P1"] }] (by decide)
  exact ⟨keyed, eprows, h1, h2, h3⟩

/-! ### Claim C5 -/

/-- **C5.**  Lazy series emission: a successful grouping fold started with
the sentinel `""` produces exactly the rows of `expectedEpRows` — each
episode contributes a `Series` header precisely when its resolved series
name differs from the previously carried name, then its `Episode` row
unless suppressed — and every `Series` row carries the resolved name and
aggregated `seen_by` of some episode's series, so a series with no
aggregated episode never produces a row. -/
theorem C5_lazy_series_emission (cfg : Config)
    (sm : List (String × EmbySeries))
    (l : List (SortKey × String × EmbyEpisode)) (rows : List Row)
    (h : epRowsFold cfg sm "" l = Except.ok rows) :
    rows = expectedEpRows cfg sm "" l ∧
    (∀ r ∈ rows, r.kind = "Series" →
      ∃ kv ∈ l, ∃ sv, lookupA sm kv.2.2.series_id = some sv ∧
        r.title = sv.name ∧ r.seen_by = sv.seen_by) := by
  have heq := epRowsFold_ok_eq h
  refine ⟨heq, ?_⟩
  intro r hr hkind
  rw [heq] at hr
  obtain ⟨kv, hkv, prev, hstep⟩ := mem_expectedEpRows hr
  obtain ⟨sv, hs2, hlook, -, hcase⟩ := stepRows_mem hstep
  rcases hcase with ⟨rfl, -⟩ | ⟨rfl, -⟩
  · exact ⟨kv, hkv, sv, hlook, rfl, rfl⟩
  · simp at hkind

/-- Witness for C5 on a one-episode keyed list over the series mapping of
`stOne`. -/
theorem C5_witness :
    epRowsFold cfgNoHide stOne.series ""
      [(mkKey "Alpha"
          { name := "E1", id := "e1", seen_by := ["P1"], profile := profP,
            series_id := "s1", season := 1, season_name := "Season 1",
            episode := 1 },
        ("e1",
          { name := "E1", id := "e1", seen_by := ["P1"], profile := profP,
            series_id := "s1", season := 1, season_name := "Season 1",
            episode := 1 }))] =
      Except.ok
        [{ kind := "Series", title := "Alpha", seen_by := ["P1"] },
         { kind := "Episode", title := "Alpha [01x01] E1",
           seen_by := ["P1"] }] ∧
    [{ kind := "Series", title := "Alpha", seen_by := ["P1"] },
     { kind := "Episode", title := "Alpha [01x01] E1", seen_by := ["P1"] }] =
      expectedEpRows cfgNoHide stOne.series ""
        [(mkKey "Alpha"
            { name := "E1", id := "e1", seen_by := ["P1"], profile := profP,
              series_id := "s1", season := 1, season_name := "Season 1",
              episode := 1 },
          ("e1",
            { name := "E1", id := "e1", seen_by := ["P1"], profile := profP,
              series_id := "s1", season := 1, season_name := "Season 1",
              episode := 1 }))] :=
  ⟨by decide,
    (C5_lazy_series_emission cfgNoHide stOne.series
      [(mkKey "Alpha"
          { name := "E1", id := "e1", seen_by := ["P1"], profile := profP,
            series_id := "s1", season := 1, season_name := "Season 1",
            episode := 1 },
        ("e1",
          { name := "E1", id := "e1", seen_by := ["P1"], profile := profP,
            series_id := "s1", season := 1, season_name := "Season 1",
            episode := 1 }))]
      [{ kind := "Series", title := "Alpha", seen_by := ["P1"] },
       { kind := "Episode", title := "Alpha [01x01] E1", seen_by := ["P1"] }]
      (by decide)).1⟩

/-! ### Claim C6 -/

/-- **C6 is false as stated**: a series whose name is the empty string
sorts first, so the fold's sentinel `s = ""` never differs from its name
and its `Series` summary row is never emitted — here the hidden series
`""` has one aggregated played episode, yet the run succeeds with an empty
report. -/
theorem C6_counterexample :
    cfgHideEmpty.hide_episodes = some [""] ∧
    (("" : String) ∈ ([""] : List String)) ∧
    (∃ kv ∈ (aggregate fetchesEmptyName).episodes, ∃ sv,
      lookupA (aggregate fetchesEmptyName).series kv.2.series_id = some sv ∧
      sv.name = "") ∧
    get_media_list cfgHideEmpty fetchesEmptyName = Except.ok [] := by
  refine ⟨rfl, by decide, ?_, by decide⟩
  decide

/-- **C6 (amended).**  For a configured `hide_episodes` set: every
`Episode` row of a successful report comes from a series whose resolved
name is *not* in the set (so no episode row of a hidden series appears);
and for every **non-empty** hidden name resolved by at least one
aggregated episode, a `Series` summary row with that title and the
series's own aggregated `seen_by` still appears. -/
theorem C6_amended_suppression (cfg : Config)
    (fetches : List (EmbyProfile × List RawItem)) (rows : List Row)
    (hs : List String) (sname : String)
    (hcfg : cfg.hide_episodes = some hs)
    (h : get_media_list cfg fetches = Except.ok rows)
    (hmem : sname ∈ hs) :
    (∀ r ∈ rows, r.kind = "Episode" →
      ∃ sv, (∃ e : EmbyEpisode,
        lookupA (aggregate fetches).series e.series_id = some sv ∧
        r.title = epTitle sv.name e ∧ r.seen_by = e.seen_by) ∧
        sv.name ∉ hs) ∧
    (sname ≠ "" →
      (∃ kv ∈ (aggregate fetches).episodes, ∃ sv,
        lookupA (aggregate fetches).series kv.2.series_id = some sv ∧
        sv.name = sname) →
      ∃ r ∈ rows, r.kind = "Series" ∧ r.title = sname ∧
        ∃ sv, sv.name = sname ∧ r.seen_by = sv.seen_by ∧
          ∃ sid, lookupA (aggregate fetches).series sid = some sv) := by
  obtain ⟨l, eprows, hke, hf, hrows⟩ := gml_ok_parts h
  constructor
  · intro r hr hkind
    rw [hrows] at hr
    rcases List.mem_append.mp hr with hre | hrm
    · rw [epRowsFold_ok_eq hf] at hre
      obtain ⟨kv, hkv, prev, hstep⟩ := mem_expectedEpRows hre
      obtain ⟨sv, hs2, hlook, hhs2, hcase⟩ := stepRows_mem hstep
      have hhs : hs2 = hs := by
        rw [hcfg] at hhs2
        cases hhs2
        rfl
      rcases hcase with ⟨rfl, -⟩ | ⟨rfl, hnot⟩
      · simp at hkind
      · exact ⟨sv, ⟨kv.2.2, hlook, rfl, rfl⟩, hhs ▸ hnot⟩
    · obtain ⟨mkv, -, rfl⟩ := List.mem_map.mp hrm
      simp at hkind
  · intro hne hexists
    obtain ⟨kv, hkv, sv, hlook, hsvn⟩ := hexists
    have hmapl := keyEpisodes_ok_map hke
    have hkv' : kv ∈ l.map fun x => x.2 := by
      rw [hmapl]
      exact hkv
    obtain ⟨x, hxl, hxkv⟩ := List.mem_map.mp hkv'
    have hxs : x ∈ insSort keyedLE l :=
      (insSort_perm keyedLE l).mem_iff.mpr hxl
    have hres : resolvedName (aggregate fetches).series x = sname := by
      rw [resolvedName, hxkv]
      rw [hlook]
      exact hsvn
    obtain ⟨r, hrmem, hrk, hrt, hrrest⟩ :=
      expected_contains_series_row hcfg hne (insSort keyedLE l) ""
        (Ne.symm hne) ⟨x, hxs, hres⟩
    refine ⟨r, ?_, hrk, hrt, hrrest⟩
    rw [hrows]
    apply List.mem_append_left
    rw [epRowsFold_ok_eq hf]
    exact hrmem

/-- Witness for the amended C6: hiding `"Alpha"` removes its episode rows
but keeps the `"Alpha"` series summary row with its aggregated
`seen_by`. -/
theorem C6_witness :
    get_media_list cfgHideAlpha fetchesA = Except.ok
      [{ kind := "Series", title := "Alpha", seen_by := ["P1"] },
       { kind := "Movie", title := "Bar", seen_by := ["P2"] },
       { kind := "Movie", title := "Foo", seen_by := ["P1"] }] ∧
    (∃ r ∈ ([{ kind := "Series", title := "Alpha", seen_by := ["P1"] },
             { kind := "Movie", title := "Bar", seen_by := ["P2"] },
             { kind := "Movie", title := "Foo", seen_by := ["P1"] }] :
               List Row),
      r.kind = "Series" ∧ r.title = "Alpha" ∧
        ∃ sv, sv.name = "Alpha" ∧ r.seen_by = sv.seen_by ∧
          ∃ sid, lookupA (aggregate fetchesA).series sid = some sv) :=
  ⟨by decide,
    (C6_amended_suppression cfgHideAlpha fetchesA
      [{ kind := "Series", title := "Alpha", seen_by := ["P1"] },
       { kind := "Movie", title := "Bar", seen_by := ["P2"] },
       { kind := "Movie", title := "Foo", seen_by := ["P1"] }]
      ["Alpha"] "Alpha" rfl (by decide) (by decide)).2
      (by decide) (by decide)⟩
